import Mathlib

set_option maxHeartbeats 2000000
set_option maxRecDepth 40000

/-!
Shallow embedding of the `@vafast/helmet` security-header middleware
(`src/index.ts`).  Records (JS objects with string keys) are modelled as
insertion-ordered association lists, optional JS properties as `Option`,
JS numbers as `Int`, and thrown exceptions as `Except String`.  The
per-response nonce produced by `generateNonce()` is passed in as an
explicit parameter, since it is the only source of randomness.
-/

deriving instance DecidableEq for Except

namespace Helmet

/-- One value of the dynamically typed CSP config object: a list of source
tokens (the `*Src` / `baseUri` directives), a plain string (`reportUri`),
or a boolean flag (`useNonce` / `reportOnly`). -/
inductive CSPValue where
  | strs (l : List String)
  | str (s : String)
  | bool (b : Bool)
deriving DecidableEq

/-- The `CSPConfig` from `src/index.ts`; every field is optional. -/
structure CSPConfig where
  defaultSrc : Option (List String) := none
  scriptSrc : Option (List String) := none
  styleSrc : Option (List String) := none
  imgSrc : Option (List String) := none
  fontSrc : Option (List String) := none
  connectSrc : Option (List String) := none
  frameSrc : Option (List String) := none
  objectSrc : Option (List String) := none
  baseUri : Option (List String) := none
  reportUri : Option String := none
  useNonce : Option Bool := none
  reportOnly : Option Bool := none
deriving DecidableEq

/-- The `HSTSConfig` from `src/index.ts`. -/
structure HSTSConfig where
  maxAge : Option Int := none
  includeSubDomains : Option Bool := none
  preload : Option Bool := none
deriving DecidableEq

/-- An entry of `ReportToConfig.endpoints`. -/
structure Endpoint where
  url : String
  priority : Option Int := none
  weight : Option Int := none
deriving DecidableEq

/-- The `ReportToConfig` from `src/index.ts`. -/
structure ReportToConfig where
  group : String
  maxAge : Int
  endpoints : List Endpoint
  includeSubdomains : Option Bool := none
deriving DecidableEq

/-- The `SecurityConfig` from `src/index.ts`.  `permissionsPolicy` and
`customHeaders` are JS records, modelled as insertion-ordered
association lists. -/
structure SecurityConfig where
  csp : Option CSPConfig := none
  frameOptions : Option String := none
  xssProtection : Option Bool := none
  dnsPrefetch : Option Bool := none
  referrerPolicy : Option String := none
  permissionsPolicy : Option (List (String × List String)) := none
  hsts : Option HSTSConfig := none
  corp : Option String := none
  coop : Option String := none
  reportTo : Option (List ReportToConfig) := none
  customHeaders : Option (List (String × String)) := none
deriving DecidableEq

/-- The `permission` constant object of source tokens. -/
def permission.SELF : String := "\x27self\x27"

def permission.UNSAFE_INLINE : String := "\x27unsafe-inline\x27"

def permission.HTTPS : String := "https:"

def permission.DATA : String := "data:"

def permission.NONE : String := "\x27none\x27"

def permission.BLOB : String := "blob:"

/-- The `DEFAULT_CSP_CONFIG` from `src/index.ts`. -/
def DEFAULT_CSP_CONFIG : CSPConfig := {
  defaultSrc := some [permission.SELF]
  scriptSrc := some [permission.SELF, permission.UNSAFE_INLINE]
  styleSrc := some [permission.SELF, permission.UNSAFE_INLINE]
  imgSrc := some [permission.SELF, permission.DATA, permission.BLOB]
  fontSrc := some [permission.SELF]
  connectSrc := some [permission.SELF]
  frameSrc := some [permission.SELF]
  objectSrc := some [permission.NONE]
  baseUri := some [permission.SELF]
}

/-- The `permissionsPolicy` record of `DEFAULT_SECURITY_CONFIG`. -/
def DEFAULT_PERMISSIONS_POLICY : List (String × List String) :=
  [("camera", []), ("microphone", []), ("geolocation", []), ("interest-cohort", [])]

/-- The `hsts` record of `DEFAULT_SECURITY_CONFIG`. -/
def DEFAULT_HSTS : HSTSConfig :=
  { maxAge := some 15552000, includeSubDomains := some true, preload := some true }

/-- The `DEFAULT_SECURITY_CONFIG` from `src/index.ts`. -/
def DEFAULT_SECURITY_CONFIG : SecurityConfig := {
  csp := some DEFAULT_CSP_CONFIG
  frameOptions := some "DENY"
  xssProtection := some true
  dnsPrefetch := some false
  referrerPolicy := some "strict-origin-when-cross-origin"
  permissionsPolicy := some DEFAULT_PERMISSIONS_POLICY
  hsts := some DEFAULT_HSTS
  corp := some "same-origin"
  coop := some "same-origin"
}

/-- The `toKebabCase`: replace every `[A-Z]` by `-` followed by its lower-case
form (the memoization cache of the source is observationally irrelevant
for a pure function). -/
def toKebabCase (s : String) : String :=
  String.join (s.data.map (fun c =>
    if c.isUpper then String.singleton '-' ++ String.singleton c.toLower
    else String.singleton c))

/-- The loop body of `validateConfig` over the `reportTo` array: the first
offending entry throws. -/
def validateReports : List ReportToConfig → Except String Unit
  | [] => Except.ok ()
  | r :: rest =>
    if r.maxAge < 0 then Except.error "Report-To maxAge must be a positive number"
    else if r.endpoints.isEmpty then Except.error "Report-To must have at least one endpoint"
    else validateReports rest

/-- The `config.hsts?.maxAge && config.hsts.maxAge < 0` guard of
`validateConfig`; JS truthiness means `maxAge` must be present and
non-zero for the first conjunct to pass. -/
def hstsCheck (hsts : Option HSTSConfig) : Except String Unit :=
  match hsts with
  | some h =>
    match h.maxAge with
    | some m =>
      if m ≠ 0 ∧ m < 0 then Except.error "HSTS maxAge must be a positive number"
      else Except.ok ()
    | none => Except.ok ()
  | none => Except.ok ()

/-- The `if (config.reportTo)` block of `validateConfig`. -/
def reportCheck (rt : Option (List ReportToConfig)) : Except String Unit :=
  match rt with
  | some reports => validateReports reports
  | none => Except.ok ()

/-- The `validateConfig` from `src/index.ts`: the HSTS guard, then the
`reportTo` loop. -/
def validateConfig (config : SecurityConfig) : Except String Unit :=
  match hstsCheck config.hsts with
  | Except.error e => Except.error e
  | Except.ok _ => reportCheck config.reportTo

/-- JS property fallback used by object spread: the user value wins when
present, otherwise the default survives. -/
def orD {α : Type} (u d : Option α) : Option α :=
  match u with
  | some v => some v
  | none => d

/-- JS object spread `{...a, ...b}` on records: keys of `a` keep their
position (with the value from `b` when `b` also has the key), keys of
`b` that are new are appended in order. -/
def recordMerge {α : Type} (a b : List (String × α)) : List (String × α) :=
  a.map (fun p =>
    match b.find? (fun q => decide (q.1 = p.1)) with
    | some q => (p.1, q.2)
    | none => p)
  ++ b.filter (fun q => !(a.any (fun p => decide (p.1 = q.1))))

/-- The `{...DEFAULT_CSP_CONFIG, ...config.csp}`. -/
def mergeCSP (d u : CSPConfig) : CSPConfig := {
  defaultSrc := orD u.defaultSrc d.defaultSrc
  scriptSrc := orD u.scriptSrc d.scriptSrc
  styleSrc := orD u.styleSrc d.styleSrc
  imgSrc := orD u.imgSrc d.imgSrc
  fontSrc := orD u.fontSrc d.fontSrc
  connectSrc := orD u.connectSrc d.connectSrc
  frameSrc := orD u.frameSrc d.frameSrc
  objectSrc := orD u.objectSrc d.objectSrc
  baseUri := orD u.baseUri d.baseUri
  reportUri := orD u.reportUri d.reportUri
  useNonce := orD u.useNonce d.useNonce
  reportOnly := orD u.reportOnly d.reportOnly
}

/-- The `{...DEFAULT_SECURITY_CONFIG.hsts, ...config.hsts}`. -/
def mergeHSTS (d u : HSTSConfig) : HSTSConfig := {
  maxAge := orD u.maxAge d.maxAge
  includeSubDomains := orD u.includeSubDomains d.includeSubDomains
  preload := orD u.preload d.preload
}

/-- The `finalConfig` computation of `tirneHelmet`: top-level fields come
from the user when present, otherwise from `DEFAULT_SECURITY_CONFIG`,
except that `csp`, `permissionsPolicy` and `hsts` are shallow-merged over
their defaults when the user provides them. -/
def resolveConfig (config : SecurityConfig) : SecurityConfig := {
  csp := some (match config.csp with
    | some u => mergeCSP DEFAULT_CSP_CONFIG u
    | none => DEFAULT_CSP_CONFIG)
  frameOptions := orD config.frameOptions DEFAULT_SECURITY_CONFIG.frameOptions
  xssProtection := orD config.xssProtection DEFAULT_SECURITY_CONFIG.xssProtection
  dnsPrefetch := orD config.dnsPrefetch DEFAULT_SECURITY_CONFIG.dnsPrefetch
  referrerPolicy := orD config.referrerPolicy DEFAULT_SECURITY_CONFIG.referrerPolicy
  permissionsPolicy := some (match config.permissionsPolicy with
    | some u => recordMerge DEFAULT_PERMISSIONS_POLICY u
    | none => DEFAULT_PERMISSIONS_POLICY)
  hsts := some (match config.hsts with
    | some u => mergeHSTS DEFAULT_HSTS u
    | none => DEFAULT_HSTS)
  corp := orD config.corp DEFAULT_SECURITY_CONFIG.corp
  coop := orD config.coop DEFAULT_SECURITY_CONFIG.coop
  reportTo := orD config.reportTo DEFAULT_SECURITY_CONFIG.reportTo
  customHeaders := orD config.customHeaders DEFAULT_SECURITY_CONFIG.customHeaders
}

/-- The `Object.entries` of the CSP config object: present fields in
insertion order (the nine directive keys of `DEFAULT_CSP_CONFIG` first,
then `reportUri`, `useNonce`, `reportOnly`). -/
def cspEntries (c : CSPConfig) : List (String × CSPValue) :=
  (match c.defaultSrc with | some l => [("defaultSrc", CSPValue.strs l)] | none => [])
  ++ (match c.scriptSrc with | some l => [("scriptSrc", CSPValue.strs l)] | none => [])
  ++ (match c.styleSrc with | some l => [("styleSrc", CSPValue.strs l)] | none => [])
  ++ (match c.imgSrc with | some l => [("imgSrc", CSPValue.strs l)] | none => [])
  ++ (match c.fontSrc with | some l => [("fontSrc", CSPValue.strs l)] | none => [])
  ++ (match c.connectSrc with | some l => [("connectSrc", CSPValue.strs l)] | none => [])
  ++ (match c.frameSrc with | some l => [("frameSrc", CSPValue.strs l)] | none => [])
  ++ (match c.objectSrc with | some l => [("objectSrc", CSPValue.strs l)] | none => [])
  ++ (match c.baseUri with | some l => [("baseUri", CSPValue.strs l)] | none => [])
  ++ (match c.reportUri with | some s => [("reportUri", CSPValue.str s)] | none => [])
  ++ (match c.useNonce with | some b => [("useNonce", CSPValue.bool b)] | none => [])
  ++ (match c.reportOnly with | some b => [("reportOnly", CSPValue.bool b)] | none => [])

/-- JS truthiness of `values?.length`: non-empty arrays and strings pass,
booleans have no `length` (undefined, hence falsy). -/
def cspValueHasLength : CSPValue → Bool
  | CSPValue.strs l => !l.isEmpty
  | CSPValue.str s => !(decide (s = ""))
  | CSPValue.bool _ => false

/-- The `values.join(" ")`: defined on arrays; on a string (the `reportUri`
value) JS raises `TypeError: values.join is not a function`. -/
def cspValueJoin : CSPValue → Except String String
  | CSPValue.strs l => Except.ok (String.intercalate " " l)
  | CSPValue.str _ => Except.error "TypeError: values.join is not a function"
  | CSPValue.bool _ => Except.error "TypeError: values.join is not a function"

/-- The loop of `buildCSPString` over `Object.entries(csp)`.  `active` is
`some n` exactly when `csp.useNonce && nonce` is truthy in the source. -/
def buildCSPParts (active : Option String) : List (String × CSPValue) → Except String (List String)
  | [] => Except.ok []
  | (key, values) :: rest =>
    if cspValueHasLength values = false ∨ key = "useNonce" ∨ key = "reportOnly" then
      buildCSPParts active rest
    else
      match cspValueJoin values with
      | Except.error e => Except.error e
      | Except.ok joined =>
        let part :=
          match active with
          | some n =>
            if key = "scriptSrc" ∨ key = "styleSrc" then
              toKebabCase key ++ " " ++ joined ++ " \x27nonce-" ++ n ++ "\x27"
            else
              toKebabCase key ++ " " ++ joined
          | none => toKebabCase key ++ " " ++ joined
        match buildCSPParts active rest with
        | Except.error e => Except.error e
        | Except.ok parts => Except.ok (part :: parts)

/-- The value of `csp.useNonce && nonce` as used inside `buildCSPString`:
the nonce is active only when the flag is truthy and the nonce string is
truthy (present and non-empty). -/
def cspActive (csp : CSPConfig) (nonce : Option String) : Option String :=
  match nonce with
  | some n => if csp.useNonce.getD false ∧ n ≠ "" then some n else none
  | none => none

/-- The `buildCSPString` from `src/index.ts`. -/
def buildCSPString (csp : CSPConfig) (nonce : Option String) : Except String String :=
  match buildCSPParts (cspActive csp nonce) (cspEntries csp) with
  | Except.error e => Except.error e
  | Except.ok parts => Except.ok (String.intercalate "; " parts)

/-- The `buildPermissionsPolicyString` from `src/index.ts`. -/
def buildPermissionsPolicyString (policies : List (String × List String)) : String :=
  String.intercalate ", " (policies.map (fun p =>
    if p.2.isEmpty then p.1 ++ "=()"
    else p.1 ++ "=(" ++ String.intercalate " " p.2 ++ ")"))

/-- One hexadecimal digit, as emitted by `JSON.stringify` in `\u00..`
escapes. -/
def hexDigit (n : Nat) : String :=
  String.singleton (if n < 10 then Char.ofNat (48 + n) else Char.ofNat (87 + n))

/-- The `JSON.stringify` escaping of one character inside a string literal. -/
def jsonEscapeChar (c : Char) : String :=
  if c = '\"' then "\\\""
  else if c = '\\' then "\\\\"
  else if c = '\n' then "\\n"
  else if c = '\r' then "\\r"
  else if c = '\t' then "\\t"
  else if c = '\x08' then "\\b"
  else if c = '\x0c' then "\\f"
  else if c.toNat < 32 then "\\u00" ++ hexDigit (c.toNat / 16) ++ hexDigit (c.toNat % 16)
  else String.singleton c

/-- The `JSON.stringify` of a string value. -/
def jsonStr (s : String) : String :=
  "\"" ++ String.join (s.data.map jsonEscapeChar) ++ "\""

/-- The `JSON.stringify` of one endpoint object `{url, priority?, weight?}`;
properties holding `undefined` are omitted. -/
def renderEndpoint (e : Endpoint) : String :=
  "\x7b\"url\":" ++ jsonStr e.url
  ++ (match e.priority with
      | some n => ",\"priority\":" ++ toString n
      | none => "")
  ++ (match e.weight with
      | some n => ",\"weight\":" ++ toString n
      | none => "")
  ++ "\x7d"

/-- The `JSON.stringify` of one element of the array built by
`buildReportToString`: the object literal
`{group, max_age: maxAge, endpoints, include_subdomains: includeSubdomains}`,
where a property holding `undefined` is omitted by `JSON.stringify`. -/
def renderReport (g : ReportToConfig) : String :=
  "\x7b\"group\":" ++ jsonStr g.group
  ++ ",\"max_age\":" ++ toString g.maxAge
  ++ ",\"endpoints\":[" ++ String.intercalate "," (g.endpoints.map renderEndpoint) ++ "]"
  ++ (match g.includeSubdomains with
      | some b => ",\"include_subdomains\":" ++ (if b then "true" else "false")
      | none => "")
  ++ "\x7d"

/-- The `buildReportToString` from `src/index.ts`. -/
def buildReportToString (reports : List ReportToConfig) : String :=
  "[" ++ String.intercalate "," (reports.map renderReport) ++ "]"

/-- The HSTS header value template of `tirneHelmet`. -/
def buildHSTSString (h : HSTSConfig) : String :=
  "max-age=" ++ (match h.maxAge with | some m => toString m | none => "undefined")
  ++ (if h.includeSubDomains.getD false then "; includeSubDomains" else "")
  ++ (if h.preload.getD false then "; preload" else "")

/-! ### The `Headers` object and responses -/

/-- ASCII lower-casing of a header name, character by character (header
names are ASCII, so this is exactly the case folding `Headers` performs). -/
def lowerStr (s : String) : String :=
  String.mk (s.data.map Char.toLower)

/-- The `Headers.set`: header names compare case-insensitively; an existing
entry keeps its position and gets the new value, otherwise the pair is
appended. -/
def hset (hs : List (String × String)) (n v : String) : List (String × String) :=
  if hs.any (fun p => decide (lowerStr p.1 = lowerStr n)) then
    hs.map (fun p => if lowerStr p.1 = lowerStr n then (p.1, v) else p)
  else hs ++ [(n, v)]

/-- The `Headers.get`, case-insensitive. -/
def hget (hs : List (String × String)) (n : String) : Option String :=
  (hs.find? (fun p => decide (lowerStr p.1 = lowerStr n))).map Prod.snd

/-- Setting a list of headers in order (the `for … of Object.entries`
loop). -/
def setAll (hs : List (String × String)) (l : List (String × String)) : List (String × String) :=
  l.foldl (fun acc p => hset acc p.1 p.2) hs

/-- A fetch `Response`, with the body left opaque. -/
structure Response where
  status : Nat
  statusText : String
  body : String
  headers : List (String × String)
deriving DecidableEq

/-! ### Middleware construction and per-request processing -/

/-- Optional header entry guarded by JS string truthiness. -/
def optEntry (name : String) (v : Option String) : List (String × String) :=
  match v with
  | some s => if s ≠ "" then [(name, s)] else []
  | none => []

/-- Optional header entry guarded by JS boolean truthiness. -/
def boolEntry (name value : String) (b : Option Bool) : List (String × String) :=
  if b.getD false then [(name, value)] else []

/-- Optional header entry guarded only by presence (`!== undefined`, or an
object/array value, which is always truthy). -/
def presentEntry (name : String) (v : Option String) : List (String × String) :=
  match v with
  | some s => [(name, s)]
  | none => []

/-- The `staticHeaders` record built by `tirneHelmet` before the
`customHeaders` merge, in assignment order. -/
def baseStatic (fc : SecurityConfig) : List (String × String) :=
  optEntry "X-Frame-Options" fc.frameOptions
  ++ boolEntry "X-XSS-Protection" "1; mode=block" fc.xssProtection
  ++ [("X-Content-Type-Options", "nosniff")]
  ++ optEntry "Referrer-Policy" fc.referrerPolicy
  ++ presentEntry "X-DNS-Prefetch-Control" (fc.dnsPrefetch.map (fun b => if b then "on" else "off"))
  ++ optEntry "Cross-Origin-Resource-Policy" fc.corp
  ++ optEntry "Cross-Origin-Opener-Policy" fc.coop
  ++ presentEntry "Report-To" (fc.reportTo.map buildReportToString)

/-- The full `staticHeaders` record: `Object.assign(staticHeaders,
finalConfig.customHeaders)` when custom headers are configured. -/
def staticHeaders (fc : SecurityConfig) : List (String × String) :=
  match fc.customHeaders with
  | some custom => recordMerge (baseStatic fc) custom
  | none => baseStatic fc

/-- The `hstsHeader` value precomputed by `tirneHelmet`: only in
production mode (a resolved config always has an `hsts` object, which is
truthy).  A non-`null` value always starts with `max-age=`, so the JS
truthiness test on it reduces to presence. -/
def hstsHeader (fc : SecurityConfig) (isProduction : Bool) : Option String :=
  match fc.hsts with
  | some h => if isProduction then some (buildHSTSString h) else none
  | none => none

/-- The state closed over by the middleware returned from `tirneHelmet`. -/
structure HelmetMW where
  finalConfig : SecurityConfig
  static : List (String × String)
  hsts : Option String
deriving DecidableEq

/-- The construction-time work of `tirneHelmet` after validation. -/
def mkMW (config : SecurityConfig) (isProduction : Bool) : HelmetMW :=
  let fc := resolveConfig config
  { finalConfig := fc, static := staticHeaders fc, hsts := hstsHeader fc isProduction }

/-- The `tirneHelmet`: validate once, then close over the resolved config,
the static header record and the precomputed HSTS value. -/
def tirneHelmet (config : SecurityConfig) (isProduction : Bool) : Except String HelmetMW :=
  match validateConfig config with
  | Except.error e => Except.error e
  | Except.ok _ => Except.ok (mkMW config isProduction)

/-- The CSP block of the middleware body: build the header (generating a
nonce only when `useNonce` is truthy), set it, and expose the nonce via
`X-Nonce` when one was generated (the `if (nonce)` truthiness test). -/
def applyCSP (c : CSPConfig) (genNonce : String) (hs : List (String × String)) :
    Except String (List (String × String)) :=
  let nonce : Option String := if c.useNonce.getD false then some genNonce else none
  let headerName :=
    if c.reportOnly.getD false then "Content-Security-Policy-Report-Only"
    else "Content-Security-Policy"
  match buildCSPString c nonce with
  | Except.error e => Except.error e
  | Except.ok v =>
    let hs2 := hset hs headerName v
    Except.ok (match nonce with
      | some n => if n = "" then hs2 else hset hs2 "X-Nonce" n
      | none => hs2)

/-- The per-request middleware body: seed a new `Headers` from the
downstream response, overwrite with static headers, CSP (+ nonce),
Permissions-Policy and HSTS, and return a new response with the original
status, status text and body.  `genNonce` is the value `generateNonce()`
would return for this response. -/
def applyMW (mw : HelmetMW) (genNonce : String) (response : Response) : Except String Response :=
  let h1 := setAll response.headers mw.static
  match (match mw.finalConfig.csp with
         | some c => applyCSP c genNonce h1
         | none => Except.ok h1) with
  | Except.error e => Except.error e
  | Except.ok h2 =>
    let h3 := match mw.finalConfig.permissionsPolicy with
      | some pp => hset h2 "Permissions-Policy" (buildPermissionsPolicyString pp)
      | none => h2
    let h4 := match mw.hsts with
      | some v => hset h3 "Strict-Transport-Security" v
      | none => h3
    Except.ok { status := response.status, statusText := response.statusText,
                body := response.body, headers := h4 }

/-- Construct the middleware and run it on one downstream response. -/
def runOn (config : SecurityConfig) (isProduction : Bool) (genNonce : String)
    (response : Response) : Except String Response :=
  match tirneHelmet config isProduction with
  | Except.error e => Except.error e
  | Except.ok mw => applyMW mw genNonce response

/-! ### Decomposition of the per-request header writes

`applyMW` performs a sequence of `Headers.set` calls whose names and
values do not depend on the downstream response.  `writes` collects that
sequence as a list, which the lemmas below relate to `applyMW`. -/

/-- The CSP header name chosen by the middleware body. -/
def cspHeaderName (c : CSPConfig) : String :=
  if c.reportOnly.getD false then "Content-Security-Policy-Report-Only"
  else "Content-Security-Policy"

/-- The `X-Nonce` write, performed only when a nonce was generated and is
truthy. -/
def nonceChunk (c : CSPConfig) (genNonce : String) : List (String × String) :=
  if c.useNonce.getD false then
    (if genNonce = "" then [] else [("X-Nonce", genNonce)])
  else []

/-- The CSP-related writes of the middleware body. -/
def cspWrites (c : CSPConfig) (genNonce : String) : Except String (List (String × String)) :=
  match buildCSPString c (if c.useNonce.getD false then some genNonce else none) with
  | Except.error e => Except.error e
  | Except.ok v => Except.ok ([(cspHeaderName c, v)] ++ nonceChunk c genNonce)

/-- The `Permissions-Policy` write. -/
def ppChunk (mw : HelmetMW) : List (String × String) :=
  match mw.finalConfig.permissionsPolicy with
  | some pp => [("Permissions-Policy", buildPermissionsPolicyString pp)]
  | none => []

/-- The `Strict-Transport-Security` write. -/
def stsChunk (mw : HelmetMW) : List (String × String) :=
  match mw.hsts with
  | some v => [("Strict-Transport-Security", v)]
  | none => []

/-- All per-request header writes of `applyMW`, in order. -/
def writes (mw : HelmetMW) (genNonce : String) : Except String (List (String × String)) :=
  match (match mw.finalConfig.csp with
         | some c => cspWrites c genNonce
         | none => Except.ok []) with
  | Except.error e => Except.error e
  | Except.ok cw => Except.ok (mw.static ++ cw ++ ppChunk mw ++ stsChunk mw)

/-- Case-insensitive last-writer lookup over a write list. -/
def lookupLastCI (l : List (String × String)) (k : String) : Option String :=
  (l.reverse.find? (fun p => decide (lowerStr p.1 = lowerStr k))).map Prod.snd

/-! ### Lemmas about the `Headers` model -/

theorem hget_hset (hs : List (String × String)) (n v k : String) :
    hget (hset hs n v) k = if lowerStr k = lowerStr n then some v else hget hs k := by
  unfold hset hget
  by_cases hany : hs.any (fun p => decide (lowerStr p.1 = lowerStr n)) = true
  · simp only [hany, if_true]
    rw [List.find?_map]
    have hpred : ((fun p : String × String => decide (lowerStr p.1 = lowerStr k)) ∘
        (fun p : String × String => if lowerStr p.1 = lowerStr n then (p.1, v) else p)) =
        (fun p : String × String => decide (lowerStr p.1 = lowerStr k)) := by
      funext p
      by_cases hp : lowerStr p.1 = lowerStr n <;> simp [Function.comp, hp]
    rw [hpred]
    by_cases hk : lowerStr k = lowerStr n
    · obtain ⟨q, hq, hqp⟩ := List.any_eq_true.mp hany
      have hsome : (hs.find? (fun p => decide (lowerStr p.1 = lowerStr k))).isSome := by
        apply List.find?_isSome.mpr
        exact ⟨q, hq, by simp only [decide_eq_true_eq] at hqp ⊢; rw [hk]; exact hqp⟩
      obtain ⟨q₀, hq₀⟩ := Option.isSome_iff_exists.mp hsome
      have hq₀p := List.find?_some hq₀
      simp only [decide_eq_true_eq] at hq₀p
      rw [hq₀, hk] at *
      simp [hq₀p ▸ hq₀p, if_pos, hk]
      rw [if_pos (hk ▸ hq₀p)]
    · simp only [hk, if_false]
      cases hfind : hs.find? (fun p => decide (lowerStr p.1 = lowerStr k)) with
      | none => simp
      | some q =>
        have hqp := List.find?_some hfind
        simp only [decide_eq_true_eq] at hqp
        have : ¬ lowerStr q.1 = lowerStr n := by rw [hqp]; exact hk
        simp [this]
  · rw [Bool.not_eq_true] at hany
    simp only [hany, Bool.false_eq_true, if_false]
    rw [List.find?_append]
    have hnone : ∀ p ∈ hs, lowerStr p.1 ≠ lowerStr n := by
      intro p hp
      have := List.any_eq_false.mp hany p hp
      simpa using this
    by_cases hk : lowerStr k = lowerStr n
    · have h₁ : hs.find? (fun p => decide (lowerStr p.1 = lowerStr k)) = none := by
        apply List.find?_eq_none.mpr
        intro p hp
        simp only [decide_eq_true_eq]
        rw [hk]
        exact hnone p hp
      have h₂ : decide (lowerStr n = lowerStr k) = true := by
        simp [hk]
      rw [if_pos hk, h₁]
      simp [List.find?, h₂]
    · have h₂ : decide (lowerStr n = lowerStr k) = false := by
        simp only [decide_eq_false_iff_not]
        intro h
        exact hk h.symm
      rw [if_neg hk]
      cases hfind : hs.find? (fun p => decide (lowerStr p.1 = lowerStr k)) with
      | none => simp [hfind, List.find?, h₂]
      | some q => simp [hfind]

theorem lookupLastCI_nil (k : String) : lookupLastCI [] k = none := rfl

theorem lookupLastCI_append (a b : List (String × String)) (k : String) :
    lookupLastCI (a ++ b) k =
      match lookupLastCI b k with
      | some v => some v
      | none => lookupLastCI a k := by
  unfold lookupLastCI
  rw [List.reverse_append, List.find?_append]
  cases hb : b.reverse.find? (fun p => decide (lowerStr p.1 = lowerStr k)) <;> simp [hb]

theorem lookupLastCI_cons (p : String × String) (l : List (String × String)) (k : String) :
    lookupLastCI (p :: l) k =
      match lookupLastCI l k with
      | some v => some v
      | none => if lowerStr p.1 = lowerStr k then some p.2 else none := by
  have : p :: l = [p] ++ l := rfl
  rw [this, lookupLastCI_append]
  cases hl : lookupLastCI l k <;> simp [hl, lookupLastCI, List.find?]
  by_cases hp : lowerStr p.1 = lowerStr k <;> simp [hp]

theorem lookupLastCI_eq_none (l : List (String × String)) (k : String)
    (h : ∀ p ∈ l, lowerStr p.1 ≠ lowerStr k) : lookupLastCI l k = none := by
  unfold lookupLastCI
  have : l.reverse.find? (fun p => decide (lowerStr p.1 = lowerStr k)) = none := by
    apply List.find?_eq_none.mpr
    intro p hp
    simp only [decide_eq_true_eq]
    exact h p (List.mem_reverse.mp hp)
  simp [this]

theorem lookupLastCI_unique (l : List (String × String)) (k v : String)
    (hmem : ∃ p, p ∈ l ∧ lowerStr p.1 = lowerStr k ∧ p.2 = v)
    (hall : ∀ p ∈ l, lowerStr p.1 = lowerStr k → p.2 = v) :
    lookupLastCI l k = some v := by
  unfold lookupLastCI
  obtain ⟨p, hp, hpk, hpv⟩ := hmem
  have hsome : (l.reverse.find? (fun p => decide (lowerStr p.1 = lowerStr k))).isSome := by
    apply List.find?_isSome.mpr
    exact ⟨p, List.mem_reverse.mpr hp, by simpa using hpk⟩
  obtain ⟨q, hq⟩ := Option.isSome_iff_exists.mp hsome
  have hqk := List.find?_some hq
  simp only [decide_eq_true_eq] at hqk
  have hqmem : q ∈ l := List.mem_reverse.mp (List.mem_of_find?_eq_some hq)
  rw [hq]
  simp [hall q hqmem hqk]

theorem setAll_append (init : List (String × String)) (a b : List (String × String)) :
    setAll init (a ++ b) = setAll (setAll init a) b := by
  unfold setAll
  rw [List.foldl_append]

theorem hget_setAll (init : List (String × String)) (l : List (String × String)) (k : String) :
    hget (setAll init l) k =
      match lookupLastCI l k with
      | some v => some v
      | none => hget init k := by
  induction l generalizing init with
  | nil => simp [setAll, lookupLastCI_nil]
  | cons p t ih =>
    have hstep : setAll init (p :: t) = setAll (hset init p.1 p.2) t := rfl
    rw [hstep, ih, lookupLastCI_cons, hget_hset]
    cases ht : lookupLastCI t k with
    | some w => simp
    | none =>
      simp only
      by_cases hk : lowerStr p.1 = lowerStr k
      · simp [hk, if_pos hk.symm]
      · rw [if_neg (fun h => hk h.symm), if_neg hk]

/-! ### Relating `applyMW` to its write list -/

theorem applyCSP_eq (c : CSPConfig) (genNonce : String) (hs : List (String × String)) :
    applyCSP c genNonce hs = (cspWrites c genNonce).map (fun cw => setAll hs cw) := by
  unfold applyCSP cspWrites cspHeaderName nonceChunk
  by_cases hu : c.useNonce.getD false
  · simp only [hu, if_true]
    cases hb : buildCSPString c (some genNonce) with
    | error e => simp [Except.map]
    | ok v =>
      simp only [Except.map]
      by_cases hn : genNonce = "" <;> simp [hn, setAll, List.foldl]
  · simp only [hu, if_false, Bool.false_eq_true]
    cases hb : buildCSPString c none with
    | error e => simp [Except.map]
    | ok v => simp [Except.map, setAll, List.foldl]

theorem applyMW_eq_writes (mw : HelmetMW) (genNonce : String) (resp : Response) :
    applyMW mw genNonce resp = (writes mw genNonce).map (fun ws =>
      { status := resp.status, statusText := resp.statusText, body := resp.body,
        headers := setAll resp.headers ws }) := by
  unfold applyMW writes
  cases hcsp : mw.finalConfig.csp with
  | none =>
    simp only
    cases hpp : mw.finalConfig.permissionsPolicy with
    | none =>
      cases hsts : mw.hsts with
      | none => simp [Except.map, ppChunk, stsChunk, hcsp, hpp, hsts, setAll_append, setAll, List.foldl]
      | some v => simp [Except.map, ppChunk, stsChunk, hcsp, hpp, hsts, setAll_append, setAll, List.foldl]
    | some pp =>
      cases hsts : mw.hsts with
      | none => simp [Except.map, ppChunk, stsChunk, hcsp, hpp, hsts, setAll_append, setAll, List.foldl]
      | some v => simp [Except.map, ppChunk, stsChunk, hcsp, hpp, hsts, setAll_append, setAll, List.foldl]
  | some c =>
    simp only [applyCSP_eq]
    cases hcw : cspWrites c genNonce with
    | error e => simp [Except.map, hcw]
    | ok cw =>
      simp only [Except.map]
      cases hpp : mw.finalConfig.permissionsPolicy with
      | none =>
        cases hsts : mw.hsts with
        | none => simp [ppChunk, stsChunk, hcsp, hpp, hsts, setAll_append, setAll, List.foldl]
        | some v => simp [ppChunk, stsChunk, hcsp, hpp, hsts, setAll_append, setAll, List.foldl]
      | some pp =>
        cases hsts : mw.hsts with
        | none => simp [ppChunk, stsChunk, hcsp, hpp, hsts, setAll_append, setAll, List.foldl]
        | some v => simp [ppChunk, stsChunk, hcsp, hpp, hsts, setAll_append, setAll, List.foldl]

theorem tirneHelmet_ok (config : SecurityConfig) (isProduction : Bool) (mw : HelmetMW)
    (h : tirneHelmet config isProduction = Except.ok mw) : mw = mkMW config isProduction := by
  unfold tirneHelmet at h
  cases hv : validateConfig config with
  | error e => rw [hv] at h; exact absurd h (by simp)
  | ok u => rw [hv] at h; simpa using h.symm

theorem runOn_ok (config : SecurityConfig) (isProduction : Bool) (genNonce : String)
    (resp r : Response) (hr : runOn config isProduction genNonce resp = Except.ok r) :
    ∃ ws, writes (mkMW config isProduction) genNonce = Except.ok ws ∧
      r.status = resp.status ∧ r.statusText = resp.statusText ∧ r.body = resp.body ∧
      r.headers = setAll resp.headers ws := by
  unfold runOn at hr
  cases ht : tirneHelmet config isProduction with
  | error e => rw [ht] at hr; exact absurd hr (by simp)
  | ok mw =>
    rw [ht] at hr
    have hmw := tirneHelmet_ok config isProduction mw ht
    subst hmw
    have hr2 : applyMW (mkMW config isProduction) genNonce resp = Except.ok r := hr
    rw [applyMW_eq_writes] at hr2
    cases hw : writes (mkMW config isProduction) genNonce with
    | error e => rw [hw] at hr2; exact absurd hr2 (by simp [Except.map])
    | ok ws =>
      rw [hw] at hr2
      simp only [Except.map, Except.ok.injEq] at hr2
      exact ⟨ws, rfl, by rw [← hr2], by rw [← hr2], by rw [← hr2], by rw [← hr2]⟩

theorem writes_ok_struct (mw : HelmetMW) (genNonce : String) (ws : List (String × String))
    (hw : writes mw genNonce = Except.ok ws) :
    ∃ cw, (match mw.finalConfig.csp with
           | some c => cspWrites c genNonce
           | none => Except.ok []) = Except.ok cw ∧
      ws = mw.static ++ cw ++ ppChunk mw ++ stsChunk mw := by
  unfold writes at hw
  cases hcw : (match mw.finalConfig.csp with
               | some c => cspWrites c genNonce
               | none => Except.ok ([] : List (String × String))) with
  | error e => rw [hcw] at hw; exact absurd hw (by simp)
  | ok cw =>
    rw [hcw] at hw
    simp only [Except.ok.injEq] at hw
    exact ⟨cw, rfl, hw.symm⟩

theorem cspWrites_ok_struct (c : CSPConfig) (genNonce : String) (cw : List (String × String))
    (hcw : cspWrites c genNonce = Except.ok cw) :
    ∃ v, buildCSPString c (if c.useNonce.getD false then some genNonce else none) = Except.ok v ∧
      cw = [(cspHeaderName c, v)] ++ nonceChunk c genNonce := by
  unfold cspWrites at hcw
  cases hb : buildCSPString c (if c.useNonce.getD false then some genNonce else none) with
  | error e => rw [hb] at hcw; exact absurd hcw (by simp)
  | ok v =>
    rw [hb] at hcw
    simp only [Except.ok.injEq] at hcw
    exact ⟨v, rfl, hcw.symm⟩

/-! ### Keys of the various write chunks -/

theorem mem_optEntry (name : String) (v : Option String) (p : String × String)
    (h : p ∈ optEntry name v) : p.1 = name := by
  unfold optEntry at h
  cases v with
  | none => simp at h
  | some s =>
    by_cases hs : s ≠ "" <;> simp [hs] at h
    rw [h]

theorem mem_boolEntry (name value : String) (b : Option Bool) (p : String × String)
    (h : p ∈ boolEntry name value b) : p = (name, value) := by
  unfold boolEntry at h
  by_cases hb : b.getD false <;> simp [hb] at h
  exact h

theorem mem_presentEntry (name : String) (v : Option String) (p : String × String)
    (h : p ∈ presentEntry name v) : p.1 = name := by
  unfold presentEntry at h
  cases v with
  | none => simp at h
  | some s => simp at h; rw [h]

theorem mem_ppChunk (mw : HelmetMW) (p : String × String) (h : p ∈ ppChunk mw) :
    p.1 = "Permissions-Policy" := by
  unfold ppChunk at h
  cases hx : mw.finalConfig.permissionsPolicy with
  | none => rw [hx] at h; simp at h
  | some pp => rw [hx] at h; simp at h; rw [h]

theorem mem_stsChunk (mw : HelmetMW) (p : String × String) (h : p ∈ stsChunk mw) :
    p.1 = "Strict-Transport-Security" := by
  unfold stsChunk at h
  cases hx : mw.hsts with
  | none => rw [hx] at h; simp at h
  | some v => rw [hx] at h; simp at h; rw [h]

theorem mem_nonceChunk (c : CSPConfig) (genNonce : String) (p : String × String)
    (h : p ∈ nonceChunk c genNonce) : p = ("X-Nonce", genNonce) := by
  unfold nonceChunk at h
  by_cases hu : c.useNonce.getD false <;> simp [hu] at h
  by_cases hn : genNonce = "" <;> simp [hn] at h
  exact h

theorem baseStatic_keys (fc : SecurityConfig) (p : String × String) (hp : p ∈ baseStatic fc) :
    p.1 = "X-Frame-Options" ∨ p.1 = "X-XSS-Protection" ∨ p.1 = "X-Content-Type-Options" ∨
    p.1 = "Referrer-Policy" ∨ p.1 = "X-DNS-Prefetch-Control" ∨
    p.1 = "Cross-Origin-Resource-Policy" ∨ p.1 = "Cross-Origin-Opener-Policy" ∨
    p.1 = "Report-To" := by
  unfold baseStatic at hp
  simp only [List.mem_append] at hp
  rcases hp with ((((((h | h) | h) | h) | h) | h) | h) | h
  · exact Or.inl (mem_optEntry _ _ _ h)
  · exact Or.inr (Or.inl (mem_boolEntry _ _ _ _ h ▸ rfl))
  · simp at h; exact Or.inr (Or.inr (Or.inl (by rw [h])))
  · exact Or.inr (Or.inr (Or.inr (Or.inl (mem_optEntry _ _ _ h))))
  · exact Or.inr (Or.inr (Or.inr (Or.inr (Or.inl (mem_presentEntry _ _ _ h)))))
  · exact Or.inr (Or.inr (Or.inr (Or.inr (Or.inr (Or.inl (mem_optEntry _ _ _ h))))))
  · exact Or.inr (Or.inr (Or.inr (Or.inr (Or.inr (Or.inr (Or.inl (mem_optEntry _ _ _ h)))))))
  · exact Or.inr (Or.inr (Or.inr (Or.inr (Or.inr (Or.inr (Or.inr (mem_presentEntry _ _ _ h)))))))

theorem baseStatic_nosniff (fc : SecurityConfig) (p : String × String) (hp : p ∈ baseStatic fc)
    (hk : lowerStr p.1 = "x-content-type-options") : p.2 = "nosniff" := by
  unfold baseStatic at hp
  simp only [List.mem_append] at hp
  rcases hp with ((((((h | h) | h) | h) | h) | h) | h) | h
  · rw [mem_optEntry _ _ _ h] at hk; exact absurd hk (by decide)
  · rw [(mem_boolEntry _ _ _ _ h ▸ rfl : p.1 = "X-XSS-Protection")] at hk
    exact absurd hk (by decide)
  · simp at h; rw [h]
  · rw [mem_optEntry _ _ _ h] at hk; exact absurd hk (by decide)
  · rw [mem_presentEntry _ _ _ h] at hk; exact absurd hk (by decide)
  · rw [mem_optEntry _ _ _ h] at hk; exact absurd hk (by decide)
  · rw [mem_optEntry _ _ _ h] at hk; exact absurd hk (by decide)
  · rw [mem_presentEntry _ _ _ h] at hk; exact absurd hk (by decide)

theorem baseStatic_mem_nosniff (fc : SecurityConfig) :
    ("X-Content-Type-Options", "nosniff") ∈ baseStatic fc := by
  unfold baseStatic
  simp [List.mem_append]

/-! ### Lemmas about `recordMerge` (JS object spread on records) -/

theorem recordMerge_keys {α : Type} (a b : List (String × α)) (p : String × α)
    (hp : p ∈ recordMerge a b) : (∃ q ∈ a, p.1 = q.1) ∨ p ∈ b := by
  unfold recordMerge at hp
  rw [List.mem_append] at hp
  rcases hp with h | h
  · obtain ⟨q, hq, he⟩ := List.mem_map.mp h
    refine Or.inl ⟨q, hq, ?_⟩
    rw [← he]
    cases hf : b.find? (fun r => decide (r.1 = q.1)) <;> simp [hf]
  · exact Or.inr (List.mem_of_mem_filter h)

theorem recordMerge_all (a b : List (String × String)) (klow v : String)
    (ha : ∀ p ∈ a, lowerStr p.1 = klow → p.2 = v)
    (hb : ∀ p ∈ b, lowerStr p.1 ≠ klow) :
    ∀ p ∈ recordMerge a b, lowerStr p.1 = klow → p.2 = v := by
  intro p hp hk
  unfold recordMerge at hp
  rw [List.mem_append] at hp
  rcases hp with h | h
  · obtain ⟨q, hq, he⟩ := List.mem_map.mp h
    cases hf : b.find? (fun r => decide (r.1 = q.1)) with
    | none =>
      rw [hf] at he
      simp only at he
      rw [← he] at hk ⊢
      exact ha q hq hk
    | some r =>
      rw [hf] at he
      simp only at he
      have hr : r ∈ b := List.mem_of_find?_eq_some hf
      have hr1 : r.1 = q.1 := by
        have := List.find?_some hf
        simpa using this
      rw [← he] at hk
      simp only at hk
      exact absurd (hr1.symm ▸ hk : lowerStr r.1 = klow) (hb r hr)
  · exact absurd hk (hb p (List.mem_of_mem_filter h))

theorem recordMerge_mem (a b : List (String × String)) (k v : String)
    (hmem : (k, v) ∈ a) (hb : ∀ p ∈ b, p.1 ≠ k) :
    (k, v) ∈ recordMerge a b := by
  unfold recordMerge
  rw [List.mem_append]
  left
  have hf : b.find? (fun r => decide (r.1 = k)) = none := by
    apply List.find?_eq_none.mpr
    intro r hr
    simp [hb r hr]
  refine List.mem_map.mpr ⟨(k, v), hmem, ?_⟩
  simp [hf]

/-! ### Projections of the resolved config -/

theorem resolveConfig_customHeaders (config : SecurityConfig) :
    (resolveConfig config).customHeaders = config.customHeaders := by
  cases h : config.customHeaders <;> simp [resolveConfig, orD, DEFAULT_SECURITY_CONFIG, h]

theorem resolveConfig_csp_isSome (config : SecurityConfig) :
    ∃ c, (resolveConfig config).csp = some c := by
  cases h : config.csp <;> simp [resolveConfig, h]

theorem resolveConfig_pp_isSome (config : SecurityConfig) :
    ∃ pp, (resolveConfig config).permissionsPolicy = some pp := by
  cases h : config.permissionsPolicy <;> simp [resolveConfig, h]

theorem resolveConfig_hsts_isSome (config : SecurityConfig) :
    ∃ h, (resolveConfig config).hsts = some h := by
  cases h : config.hsts <;> simp [resolveConfig, h]

/-! ### Keys and values of the static header record -/

theorem staticHeaders_keys_lower (fc : SecurityConfig) (p : String × String)
    (hp : p ∈ staticHeaders fc) :
    lowerStr p.1 = "x-frame-options" ∨ lowerStr p.1 = "x-xss-protection" ∨
    lowerStr p.1 = "x-content-type-options" ∨ lowerStr p.1 = "referrer-policy" ∨
    lowerStr p.1 = "x-dns-prefetch-control" ∨ lowerStr p.1 = "cross-origin-resource-policy" ∨
    lowerStr p.1 = "cross-origin-opener-policy" ∨ lowerStr p.1 = "report-to" ∨
    p ∈ fc.customHeaders.getD [] := by
  have hbase : ∀ q : String × String, q ∈ baseStatic fc → ∀ s : String, s = q.1 →
      lowerStr s = "x-frame-options" ∨ lowerStr s = "x-xss-protection" ∨
      lowerStr s = "x-content-type-options" ∨ lowerStr s = "referrer-policy" ∨
      lowerStr s = "x-dns-prefetch-control" ∨ lowerStr s = "cross-origin-resource-policy" ∨
      lowerStr s = "cross-origin-opener-policy" ∨ lowerStr s = "report-to" := by
    intro q hq s hs
    rcases baseStatic_keys fc q hq with h | h | h | h | h | h | h | h <;> rw [hs, h]
    · exact Or.inl (by decide)
    · exact Or.inr (Or.inl (by decide))
    · exact Or.inr (Or.inr (Or.inl (by decide)))
    · exact Or.inr (Or.inr (Or.inr (Or.inl (by decide))))
    · exact Or.inr (Or.inr (Or.inr (Or.inr (Or.inl (by decide)))))
    · exact Or.inr (Or.inr (Or.inr (Or.inr (Or.inr (Or.inl (by decide))))))
    · exact Or.inr (Or.inr (Or.inr (Or.inr (Or.inr (Or.inr (Or.inl (by decide)))))))
    · exact Or.inr (Or.inr (Or.inr (Or.inr (Or.inr (Or.inr (Or.inr (by decide)))))))
  unfold staticHeaders at hp
  cases hch : fc.customHeaders with
  | none =>
    rw [hch] at hp
    rcases hbase p hp p.1 rfl with h | h | h | h | h | h | h | h <;> simp [h, hch]
  | some custom =>
    rw [hch] at hp
    rcases recordMerge_keys _ _ _ hp with ⟨q, hq, he⟩ | h
    · rcases hbase q hq p.1 he with h | h | h | h | h | h | h | h <;> simp [h, hch]
    · simp [hch, h]

theorem staticHeaders_nosniff (fc : SecurityConfig)
    (hcustom : ∀ p ∈ fc.customHeaders.getD [], lowerStr p.1 ≠ "x-content-type-options") :
    lookupLastCI (staticHeaders fc) "X-Content-Type-Options" = some "nosniff" := by
  have hlow : lowerStr "X-Content-Type-Options" = "x-content-type-options" := by decide
  apply lookupLastCI_unique
  · unfold staticHeaders
    cases hch : fc.customHeaders with
    | none =>
      exact ⟨("X-Content-Type-Options", "nosniff"), baseStatic_mem_nosniff fc, by rw [hlow], rfl⟩
    | some custom =>
      refine ⟨("X-Content-Type-Options", "nosniff"), ?_, by rw [hlow], rfl⟩
      apply recordMerge_mem _ _ _ _ (baseStatic_mem_nosniff fc)
      intro q hq hqk
      have := hcustom q (by simp [hch]; exact hq)
      rw [hqk, hlow] at this
      exact this rfl
  · intro p hp hk
    rw [hlow] at hk
    unfold staticHeaders at hp
    cases hch : fc.customHeaders with
    | none =>
      rw [hch] at hp
      exact baseStatic_nosniff fc p hp hk
    | some custom =>
      rw [hch] at hp
      refine recordMerge_all _ _ "x-content-type-options" "nosniff" ?_ ?_ p hp hk
      · intro q hq hqk
        exact baseStatic_nosniff fc q hq hqk
      · intro q hq
        exact hcustom q (by simp [hch]; exact hq)

theorem staticHeaders_no_sts (fc : SecurityConfig)
    (hcustom : ∀ p ∈ fc.customHeaders.getD [], lowerStr p.1 ≠ "strict-transport-security") :
    lookupLastCI (staticHeaders fc) "Strict-Transport-Security" = none := by
  have hlow : lowerStr "Strict-Transport-Security" = "strict-transport-security" := by decide
  apply lookupLastCI_eq_none
  intro p hp
  rw [hlow]
  rcases staticHeaders_keys_lower fc p hp with h | h | h | h | h | h | h | h | h
  · rw [h]; decide
  · rw [h]; decide
  · rw [h]; decide
  · rw [h]; decide
  · rw [h]; decide
  · rw [h]; decide
  · rw [h]; decide
  · rw [h]; decide
  · exact hcustom p h

/-! ### Lemmas about the CSP builder -/

theorem buildCSPParts_error (active : Option String) (es : List (String × CSPValue))
    (e : String) (h : buildCSPParts active es = Except.error e) :
    e = "TypeError: values.join is not a function" := by
  induction es with
  | nil => exact absurd h (by simp [buildCSPParts])
  | cons hd tl ih =>
    obtain ⟨key, values⟩ := hd
    unfold buildCSPParts at h
    by_cases hskip : cspValueHasLength values = false ∨ key = "useNonce" ∨ key = "reportOnly"
    · rw [if_pos hskip] at h
      exact ih h
    · rw [if_neg hskip] at h
      cases hj : cspValueJoin values with
      | error e' =>
        rw [hj] at h
        simp only [Except.error.injEq] at h
        cases values with
        | strs l => exact absurd hj (by simp [cspValueJoin])
        | str s => rw [← h]; simpa [cspValueJoin] using hj.symm
        | bool b => rw [← h]; simpa [cspValueJoin] using hj.symm
      | ok joined =>
        rw [hj] at h
        simp only at h
        cases hrec : buildCSPParts active tl with
        | error e' =>
          rw [hrec] at h
          simp only [Except.error.injEq] at h
          subst h
          exact ih hrec
        | ok parts => rw [hrec] at h; exact absurd h (by simp)

theorem buildCSPString_error (c : CSPConfig) (nonce : Option String) (e : String)
    (h : buildCSPString c nonce = Except.error e) :
    e = "TypeError: values.join is not a function" := by
  unfold buildCSPString at h
  cases hp : buildCSPParts (cspActive c nonce) (cspEntries c) with
  | error e' =>
    rw [hp] at h
    simp only [Except.error.injEq] at h
    rw [← h]
    exact buildCSPParts_error _ _ _ hp
  | ok parts => rw [hp] at h; exact absurd h (by simp)

/-- The directive clause contributed by one non-skipped list-valued entry
of the CSP config. -/
def entryClause (active : Option String) (key : String) (l : List String) : String :=
  match active with
  | some n =>
    if key = "scriptSrc" ∨ key = "styleSrc" then
      toKebabCase key ++ " " ++ String.intercalate " " l ++ " \x27nonce-" ++ n ++ "\x27"
    else toKebabCase key ++ " " ++ String.intercalate " " l
  | none => toKebabCase key ++ " " ++ String.intercalate " " l

theorem buildCSPParts_mem (active : Option String) (es : List (String × CSPValue))
    (parts : List String) (h : buildCSPParts active es = Except.ok parts)
    (key : String) (l : List String) (hmem : (key, CSPValue.strs l) ∈ es) (hl : l ≠ [])
    (hk1 : key ≠ "useNonce") (hk2 : key ≠ "reportOnly") :
    entryClause active key l ∈ parts := by
  induction es generalizing parts with
  | nil => simp at hmem
  | cons hd tl ih =>
    obtain ⟨k', v'⟩ := hd
    rw [List.mem_cons] at hmem
    unfold buildCSPParts at h
    by_cases hskip : cspValueHasLength v' = false ∨ k' = "useNonce" ∨ k' = "reportOnly"
    · rw [if_pos hskip] at h
      rcases hmem with heq | hmem
      · exfalso
        have hk : key = k' := by
          have := congrArg Prod.fst heq
          simpa using this
        have hv : CSPValue.strs l = v' := by
          have := congrArg Prod.snd heq
          simpa using this
        rcases hskip with hlen | hu | hr
        · rw [← hv] at hlen
          simp [cspValueHasLength] at hlen
          exact hl hlen
        · exact hk1 (hk.trans hu)
        · exact hk2 (hk.trans hr)
      · exact ih parts h hmem
    · rw [if_neg hskip] at h
      cases hj : cspValueJoin v' with
      | error e' => rw [hj] at h; exact absurd h (by simp)
      | ok joined =>
        rw [hj] at h
        simp only at h
        cases hrec : buildCSPParts active tl with
        | error e' => rw [hrec] at h; exact absurd h (by simp)
        | ok parts' =>
          rw [hrec] at h
          simp only [Except.ok.injEq] at h
          rcases hmem with heq | hmem
          · have hk : key = k' := by
              have := congrArg Prod.fst heq
              simpa using this
            have hv : CSPValue.strs l = v' := by
              have := congrArg Prod.snd heq
              simpa using this
            subst hk
            rw [← hv] at hj
            have hjoined : joined = String.intercalate " " l := by
              simpa [cspValueJoin] using hj.symm
            subst hjoined
            rw [← h]
            cases active with
            | none => simp [entryClause]
            | some n =>
              by_cases hsty : key = "scriptSrc" ∨ key = "styleSrc" <;>
                simp [entryClause, hsty]
          · rw [← h]
            exact List.mem_cons_of_mem _ (ih parts' hrec hmem)

/-- When every entry of the CSP config holds a token list (in particular,
`reportUri` is absent or empty), the builder succeeds. -/
theorem buildCSPParts_ok (active : Option String) (es : List (String × CSPValue))
    (hes : ∀ p ∈ es, ∀ s : String, p.2 = CSPValue.str s → s = "") :
    ∃ parts, buildCSPParts active es = Except.ok parts := by
  induction es with
  | nil => exact ⟨[], rfl⟩
  | cons hd tl ih =>
    obtain ⟨k', v'⟩ := hd
    obtain ⟨parts', hparts'⟩ := ih (fun p hp => hes p (List.mem_cons_of_mem _ hp))
    unfold buildCSPParts
    by_cases hskip : cspValueHasLength v' = false ∨ k' = "useNonce" ∨ k' = "reportOnly"
    · rw [if_pos hskip]
      exact ⟨parts', hparts'⟩
    · rw [if_neg hskip]
      cases v' with
      | strs l => simp [cspValueJoin, hparts']
      | str s =>
        exfalso
        have hs := hes (k', CSPValue.str s) (List.mem_cons_self _ _) s rfl
        apply hskip
        left
        simp [cspValueHasLength, hs]
      | bool b =>
        exfalso
        apply hskip
        left
        simp [cspValueHasLength]

/-! ### `String.intercalate` helper lemmas -/

theorem intercalate_go_append (sep tok : String) (l : List String) :
    ∀ acc : String, String.intercalate.go acc sep (l ++ [tok]) =
      String.intercalate.go acc sep l ++ sep ++ tok := by
  induction l with
  | nil => intro acc; simp [String.intercalate.go]
  | cons b t ih =>
    intro acc
    simp only [List.cons_append, String.intercalate.go]
    exact ih (acc ++ sep ++ b)

theorem intercalate_append_singleton (sep tok : String) (l : List String) (hl : l ≠ []) :
    String.intercalate sep (l ++ [tok]) = String.intercalate sep l ++ sep ++ tok := by
  cases l with
  | nil => exact absurd rfl hl
  | cons a t =>
    simp only [List.cons_append, String.intercalate]
    exact intercalate_go_append sep tok t a

/-! ### Validation lemmas -/

theorem validateReports_error_iff (l : List ReportToConfig) :
    (∃ e, validateReports l = Except.error e) ↔
      ∃ r ∈ l, r.maxAge < 0 ∨ r.endpoints = [] := by
  induction l with
  | nil => simp [validateReports]
  | cons hd tl ih =>
    constructor
    · intro ⟨e, he⟩
      unfold validateReports at he
      by_cases h1 : hd.maxAge < 0
      · exact ⟨hd, List.mem_cons_self _ _, Or.inl h1⟩
      · rw [if_neg h1] at he
        by_cases h2 : hd.endpoints.isEmpty
        · exact ⟨hd, List.mem_cons_self _ _, Or.inr (List.isEmpty_iff.mp h2)⟩
        · rw [if_neg h2] at he
          obtain ⟨r, hr, hbad⟩ := ih.mp ⟨e, he⟩
          exact ⟨r, List.mem_cons_of_mem _ hr, hbad⟩
    · intro ⟨r, hr, hbad⟩
      unfold validateReports
      by_cases h1 : hd.maxAge < 0
      · exact ⟨_, by rw [if_pos h1]⟩
      · rw [List.mem_cons] at hr
        by_cases h2 : hd.endpoints.isEmpty
        · exact ⟨_, by rw [if_neg h1, if_pos h2]⟩
        · rcases hr with heq | hr
          · exfalso
            rcases hbad with hb | hb
            · exact h1 (heq ▸ hb)
            · exact h2 (heq ▸ List.isEmpty_iff.mpr hb)
          · obtain ⟨e, he⟩ := ih.mpr ⟨r, hr, hbad⟩
            exact ⟨e, by rw [if_neg h1, if_neg h2]; exact he⟩

/-! ### Small utility lemmas for the claim proofs -/

theorem mkMW_static (config : SecurityConfig) (isProduction : Bool) :
    (mkMW config isProduction).static = staticHeaders (resolveConfig config) := rfl

theorem mkMW_finalConfig (config : SecurityConfig) (isProduction : Bool) :
    (mkMW config isProduction).finalConfig = resolveConfig config := rfl

theorem mkMW_hsts (config : SecurityConfig) (isProduction : Bool) :
    (mkMW config isProduction).hsts = hstsHeader (resolveConfig config) isProduction := rfl

theorem lookupLastCI_singleton (n v k : String) :
    lookupLastCI [(n, v)] k = if lowerStr n = lowerStr k then some v else none := by
  unfold lookupLastCI
  by_cases h : lowerStr n = lowerStr k <;> simp [List.find?, h]

theorem hget_eq_none (hs : List (String × String)) (k : String)
    (h : ∀ p ∈ hs, lowerStr p.1 ≠ lowerStr k) : hget hs k = none := by
  unfold hget
  have : hs.find? (fun p => decide (lowerStr p.1 = lowerStr k)) = none := by
    apply List.find?_eq_none.mpr
    intro p hp
    simpa using h p hp
  simp [this]

theorem lookupLastCI_isSome (l : List (String × String)) (k : String)
    (h : ∃ p ∈ l, lowerStr p.1 = lowerStr k) : ∃ v, lookupLastCI l k = some v := by
  unfold lookupLastCI
  obtain ⟨p, hp, hpk⟩ := h
  have hsome : (l.reverse.find? (fun p => decide (lowerStr p.1 = lowerStr k))).isSome := by
    apply List.find?_isSome.mpr
    exact ⟨p, List.mem_reverse.mpr hp, by simpa using hpk⟩
  obtain ⟨q, hq⟩ := Option.isSome_iff_exists.mp hsome
  exact ⟨q.2, by rw [hq]; rfl⟩

theorem cspWrites_error (c : CSPConfig) (genNonce : String) (e : String)
    (h : cspWrites c genNonce = Except.error e) :
    e = "TypeError: values.join is not a function" := by
  unfold cspWrites at h
  cases hb : buildCSPString c (if c.useNonce.getD false then some genNonce else none) with
  | error e' =>
    rw [hb] at h
    simp only [Except.error.injEq] at h
    rw [← h]
    exact buildCSPString_error _ _ _ hb
  | ok v => rw [hb] at h; exact absurd h (by simp)

theorem writes_error (mw : HelmetMW) (genNonce : String) (e : String)
    (h : writes mw genNonce = Except.error e) :
    e = "TypeError: values.join is not a function" := by
  unfold writes at h
  cases hcsp : mw.finalConfig.csp with
  | none => rw [hcsp] at h; exact absurd h (by simp)
  | some c =>
    rw [hcsp] at h
    have h2 : (match cspWrites c genNonce with
               | Except.error e => Except.error e
               | Except.ok cw =>
                 Except.ok (mw.static ++ cw ++ ppChunk mw ++ stsChunk mw)) =
        Except.error e := h
    cases hcw : cspWrites c genNonce with
    | error e' =>
      rw [hcw] at h2
      simp only [Except.error.injEq] at h2
      rw [← h2]
      exact cspWrites_error _ _ _ hcw
    | ok cw => rw [hcw] at h2; exact absurd h2 (by simp)

theorem applyMW_error (mw : HelmetMW) (genNonce : String) (resp : Response) (e : String)
    (h : applyMW mw genNonce resp = Except.error e) :
    e = "TypeError: values.join is not a function" := by
  rw [applyMW_eq_writes] at h
  cases hw : writes mw genNonce with
  | error e' =>
    rw [hw] at h
    simp only [Except.map, Except.error.injEq] at h
    rw [← h]
    exact writes_error _ _ _ hw
  | ok ws => rw [hw] at h; exact absurd h (by simp [Except.map])

/-- A fixed downstream response with no preset headers, used by the
concrete counterexamples and witnesses. -/
def resp0 : Response := { status := 200, statusText := "OK", body := "body", headers := [] }

/-- Substring test, used to state that a header value does or does not
mention a given field name. -/
def isPrefixList : List Char → List Char → Bool
  | [], _ => true
  | _ :: _, [] => false
  | a :: as, b :: bs => decide (a = b) && isPrefixList as bs

def containsSubList (pat : List Char) : List Char → Bool
  | [] => isPrefixList pat []
  | c :: cs => isPrefixList pat (c :: cs) || containsSubList pat cs

def strContainsSub (pat s : String) : Bool :=
  containsSubList pat.data s.data

/-- Extract the response from a successful middleware run (total helper
for stating concrete witnesses). -/
def runOnD (config : SecurityConfig) (isProduction : Bool) (genNonce : String)
    (resp : Response) : Response :=
  match runOn config isProduction genNonce resp with
  | Except.ok r => r
  | Except.error _ => resp0

/-- Extract the response from a successful `applyMW` call. -/
def applyMWD (mw : HelmetMW) (genNonce : String) (resp : Response) : Response :=
  match applyMW mw genNonce resp with
  | Except.ok r => r
  | Except.error _ => resp0

/-! ### Claim C1 -/

/-- C1 (counterexample): with `customHeaders = {X-Content-Type-Options:
"foo"}` the produced response carries `X-Content-Type-Options: foo`, not
`nosniff` — `Object.assign` merges custom headers over the static record,
so the claim fails for configurations that override the header. -/
theorem C1_counterexample :
    (runOn { customHeaders := some [("X-Content-Type-Options", "foo")] } false "N" resp0).map
        (fun r => hget r.headers "X-Content-Type-Options") = Except.ok (some "foo") ∧
    (runOn { customHeaders := some [("X-Content-Type-Options", "foo")] } false "N" resp0).map
        (fun r => hget r.headers "X-Content-Type-Options") ≠ Except.ok (some "nosniff") := by
  constructor
  · decide
  · decide

/-- C1 (amended): for every configuration whose `customHeaders` contains
no key that case-insensitively equals `X-Content-Type-Options`, every
response produced by the middleware carries `X-Content-Type-Options`
with value exactly `nosniff`. -/
theorem C1_nosniff (config : SecurityConfig) (isProduction : Bool) (genNonce : String)
    (resp r : Response)
    (hcustom : ∀ p ∈ config.customHeaders.getD [], lowerStr p.1 ≠ "x-content-type-options")
    (hr : runOn config isProduction genNonce resp = Except.ok r) :
    hget r.headers "X-Content-Type-Options" = some "nosniff" := by
  obtain ⟨ws, hw, _, _, _, hh⟩ := runOn_ok config isProduction genNonce resp r hr
  obtain ⟨cw, hcw, hws⟩ := writes_ok_struct _ _ _ hw
  obtain ⟨c, hc⟩ := resolveConfig_csp_isSome config
  rw [mkMW_finalConfig, hc] at hcw
  have hcw2 : cspWrites c genNonce = Except.ok cw := hcw
  obtain ⟨v, hv, hcweq⟩ := cspWrites_ok_struct _ _ _ hcw2
  have hsts0 : lookupLastCI (stsChunk (mkMW config isProduction)) "X-Content-Type-Options"
      = none := by
    apply lookupLastCI_eq_none
    intro p hp
    rw [mem_stsChunk _ p hp]
    decide
  have hpp0 : lookupLastCI (ppChunk (mkMW config isProduction)) "X-Content-Type-Options"
      = none := by
    apply lookupLastCI_eq_none
    intro p hp
    rw [mem_ppChunk _ p hp]
    decide
  have hcw0 : lookupLastCI cw "X-Content-Type-Options" = none := by
    apply lookupLastCI_eq_none
    intro p hp
    rw [hcweq] at hp
    rcases List.mem_append.mp hp with h | h
    · have hpeq : p = (cspHeaderName c, v) := by simpa using h
      rw [hpeq]
      show lowerStr (cspHeaderName c) ≠ lowerStr "X-Content-Type-Options"
      unfold cspHeaderName
      by_cases hro : c.reportOnly.getD false
      · rw [if_pos hro]; decide
      · rw [if_neg hro]; decide
    · rw [mem_nonceChunk _ _ _ h]
      show lowerStr "X-Nonce" ≠ lowerStr "X-Content-Type-Options"
      decide
  have hstat : lookupLastCI (staticHeaders (resolveConfig config)) "X-Content-Type-Options"
      = some "nosniff" := by
    apply staticHeaders_nosniff
    rw [resolveConfig_customHeaders]
    exact hcustom
  rw [hh, hget_setAll, hws, mkMW_static]
  simp only [lookupLastCI_append, hsts0, hpp0, hcw0, hstat]

/-- C1 (witness): the amended theorem applied to the empty configuration. -/
theorem C1_nosniff_witness :
    hget (runOnD {} false "N" resp0).headers "X-Content-Type-Options" = some "nosniff" :=
  C1_nosniff {} false "N" resp0 (runOnD {} false "N" resp0) (by decide) (by decide)

/-! ### Claim C2 -/

/-- C2 (counterexample): the default `imgSrc` list is
`['self', data:, blob:]`, not just the self-origin token. -/
theorem C2_counterexample :
    (resolveConfig {}).csp.map CSPConfig.imgSrc =
      some (some [permission.SELF, permission.DATA, permission.BLOB]) ∧
    (resolveConfig {}).csp.map CSPConfig.imgSrc ≠ some (some [permission.SELF]) := by
  constructor
  · decide
  · decide

/-- C2 (amended): when the user omits `csp` (or omits individual csp
keys), each resolved CSP directive equals the built-in default:
`default-src/font-src/connect-src/frame-src/base-uri = ['self']`,
`script-src/style-src = ['self', 'unsafe-inline']`,
`object-src = ['none']`, and `img-src = ['self', data:, blob:]`. -/
theorem C2_csp_defaults (config : SecurityConfig) (c : CSPConfig)
    (hc : (resolveConfig config).csp = some c) :
    ((∀ u, config.csp = some u → u.defaultSrc = none) → c.defaultSrc = some [permission.SELF]) ∧
    ((∀ u, config.csp = some u → u.scriptSrc = none) →
      c.scriptSrc = some [permission.SELF, permission.UNSAFE_INLINE]) ∧
    ((∀ u, config.csp = some u → u.styleSrc = none) →
      c.styleSrc = some [permission.SELF, permission.UNSAFE_INLINE]) ∧
    ((∀ u, config.csp = some u → u.imgSrc = none) →
      c.imgSrc = some [permission.SELF, permission.DATA, permission.BLOB]) ∧
    ((∀ u, config.csp = some u → u.fontSrc = none) → c.fontSrc = some [permission.SELF]) ∧
    ((∀ u, config.csp = some u → u.connectSrc = none) → c.connectSrc = some [permission.SELF]) ∧
    ((∀ u, config.csp = some u → u.frameSrc = none) → c.frameSrc = some [permission.SELF]) ∧
    ((∀ u, config.csp = some u → u.objectSrc = none) → c.objectSrc = some [permission.NONE]) ∧
    ((∀ u, config.csp = some u → u.baseUri = none) → c.baseUri = some [permission.SELF]) := by
  cases hcfg : config.csp with
  | none =>
    rw [resolveConfig, hcfg] at hc
    simp only [Option.some.injEq] at hc
    subst hc
    refine ⟨fun _ => rfl, fun _ => rfl, fun _ => rfl, fun _ => rfl, fun _ => rfl,
      fun _ => rfl, fun _ => rfl, fun _ => rfl, fun _ => rfl⟩
  | some u =>
    rw [resolveConfig, hcfg] at hc
    simp only [Option.some.injEq] at hc
    subst hc
    refine ⟨fun h => ?_, fun h => ?_, fun h => ?_, fun h => ?_, fun h => ?_,
      fun h => ?_, fun h => ?_, fun h => ?_, fun h => ?_⟩ <;>
      simp [mergeCSP, orD, h u rfl, DEFAULT_CSP_CONFIG]

/-- C2 (witness): the amended theorem applied to the empty configuration. -/
theorem C2_csp_defaults_witness :
    DEFAULT_CSP_CONFIG.defaultSrc = some [permission.SELF] ∧
    DEFAULT_CSP_CONFIG.imgSrc = some [permission.SELF, permission.DATA, permission.BLOB] := by
  have h := C2_csp_defaults {} DEFAULT_CSP_CONFIG rfl
  exact ⟨h.1 (fun u hu => nomatch hu), h.2.2.2.1 (fun u hu => nomatch hu)⟩

/-! ### Claim C3 -/

/-- C3 (failing input): with `csp.reportUri` set to a non-empty string,
construction succeeds, but every request fails: `buildCSPString`
evaluates `values.join(" ")` on the `reportUri` string, which has no
`join` method, so the builder is not total — contrary to the claim. -/
theorem C3_reportUri_crash :
    tirneHelmet { csp := some { reportUri := some "https://example.com/csp-report" } } false =
      Except.ok (mkMW { csp := some { reportUri := some "https://example.com/csp-report" } } false) ∧
    runOn { csp := some { reportUri := some "https://example.com/csp-report" } } false "N" resp0 =
      Except.error "TypeError: values.join is not a function" := by
  constructor
  · rfl
  · decide

/-! ### Claim C5 -/

/-- C5 (counterexample): a policy whose `customHeaders` sets
`Strict-Transport-Security` makes the header appear on the response even
in non-production mode, so the header is not absent in every
non-production mode as the claim states. -/
theorem C5_counterexample :
    (runOn { customHeaders := some [("Strict-Transport-Security", "max-age=1")] } false "N"
        resp0).map (fun r => hget r.headers "Strict-Transport-Security") =
      Except.ok (some "max-age=1") := by
  decide

/-- C5 (amended): provided neither `customHeaders` nor the downstream
response carries a `Strict-Transport-Security` header (case-insensitively),
the produced response carries `Strict-Transport-Security` if and only if
the runtime mode read at construction is production. -/
theorem C5_hsts_iff (config : SecurityConfig) (isProduction : Bool) (genNonce : String)
    (resp r : Response)
    (hcustom : ∀ p ∈ config.customHeaders.getD [], lowerStr p.1 ≠ "strict-transport-security")
    (horig : ∀ p ∈ resp.headers, lowerStr p.1 ≠ "strict-transport-security")
    (hr : runOn config isProduction genNonce resp = Except.ok r) :
    (hget r.headers "Strict-Transport-Security").isSome = isProduction := by
  obtain ⟨ws, hw, _, _, _, hh⟩ := runOn_ok config isProduction genNonce resp r hr
  obtain ⟨cw, hcw, hws⟩ := writes_ok_struct _ _ _ hw
  obtain ⟨c, hc⟩ := resolveConfig_csp_isSome config
  rw [mkMW_finalConfig, hc] at hcw
  have hcw2 : cspWrites c genNonce = Except.ok cw := hcw
  obtain ⟨v, hv, hcweq⟩ := cspWrites_ok_struct _ _ _ hcw2
  have hpp0 : lookupLastCI (ppChunk (mkMW config isProduction)) "Strict-Transport-Security"
      = none := by
    apply lookupLastCI_eq_none
    intro p hp
    rw [mem_ppChunk _ p hp]
    decide
  have hcw0 : lookupLastCI cw "Strict-Transport-Security" = none := by
    apply lookupLastCI_eq_none
    intro p hp
    rw [hcweq] at hp
    rcases List.mem_append.mp hp with h | h
    · have hpeq : p = (cspHeaderName c, v) := by simpa using h
      rw [hpeq]
      show lowerStr (cspHeaderName c) ≠ lowerStr "Strict-Transport-Security"
      unfold cspHeaderName
      by_cases hro : c.reportOnly.getD false
      · rw [if_pos hro]; decide
      · rw [if_neg hro]; decide
    · rw [mem_nonceChunk _ _ _ h]
      show lowerStr "X-Nonce" ≠ lowerStr "Strict-Transport-Security"
      decide
  have hstat : lookupLastCI (staticHeaders (resolveConfig config)) "Strict-Transport-Security"
      = none := by
    apply staticHeaders_no_sts
    rw [resolveConfig_customHeaders]
    exact hcustom
  have horig0 : hget resp.headers "Strict-Transport-Security" = none := by
    apply hget_eq_none
    intro p hp
    rw [show lowerStr "Strict-Transport-Security" = "strict-transport-security" from by decide]
    exact horig p hp
  obtain ⟨hobj, hhsts⟩ := resolveConfig_hsts_isSome config
  rw [hh, hget_setAll, hws, mkMW_static]
  cases isProduction with
  | true =>
    have hstsChunk : stsChunk (mkMW config true) =
        [("Strict-Transport-Security", buildHSTSString hobj)] := by
      unfold stsChunk
      rw [mkMW_hsts]
      unfold hstsHeader
      rw [hhsts]
      simp
    simp only [lookupLastCI_append, hstsChunk, lookupLastCI_singleton]
    simp
  | false =>
    have hstsChunk : stsChunk (mkMW config false) = [] := by
      unfold stsChunk
      rw [mkMW_hsts]
      unfold hstsHeader
      rw [hhsts]
      simp
    simp only [lookupLastCI_append, hstsChunk, lookupLastCI_nil, hpp0, hcw0, hstat, horig0]
    simp

/-- C5 (witness): the amended theorem at the empty configuration, in
production mode the header is present. -/
theorem C5_hsts_iff_witness :
    (hget (runOnD {} true "N" resp0).headers "Strict-Transport-Security").isSome = true :=
  C5_hsts_iff {} true "N" resp0 (runOnD {} true "N" resp0) (by decide) (by decide) (by decide)

/-! ### Claim C4 -/

theorem hstsCheck_error_iff (hsts : Option HSTSConfig) :
    (∃ e, hstsCheck hsts = Except.error e) ↔
      ∃ h m, hsts = some h ∧ h.maxAge = some m ∧ m < 0 := by
  cases hsts with
  | none => simp [hstsCheck]
  | some h =>
    cases hm : h.maxAge with
    | none => simp [hstsCheck, hm]
    | some m =>
      by_cases hneg : m ≠ 0 ∧ m < 0
      · constructor
        · intro _
          exact ⟨h, m, rfl, hm, hneg.2⟩
        · intro _
          exact ⟨"HSTS maxAge must be a positive number", by simp [hstsCheck, hm, hneg]⟩
      · constructor
        · intro ⟨e, he⟩
          exfalso
          simp [hstsCheck, hm, hneg] at he
        · intro ⟨h2, m2, hh2, hm2, hlt⟩
          exfalso
          simp only [Option.some.injEq] at hh2
          rw [← hh2, hm] at hm2
          simp only [Option.some.injEq] at hm2
          rw [← hm2] at hlt
          exact hneg ⟨by omega, hlt⟩

theorem reportCheck_error_iff (rt : Option (List ReportToConfig)) :
    (∃ e, reportCheck rt = Except.error e) ↔
      ∃ l, rt = some l ∧ ∃ r ∈ l, r.maxAge < 0 ∨ r.endpoints = [] := by
  cases rt with
  | none => simp [reportCheck]
  | some l => simpa [reportCheck] using validateReports_error_iff l

theorem validateConfig_error_iff (config : SecurityConfig) :
    (∃ e, validateConfig config = Except.error e) ↔
      ((∃ h m, config.hsts = some h ∧ h.maxAge = some m ∧ m < 0) ∨
       (∃ l, config.reportTo = some l ∧ ∃ r ∈ l, r.maxAge < 0 ∨ r.endpoints = [])) := by
  unfold validateConfig
  cases hc : hstsCheck config.hsts with
  | error e =>
    constructor
    · intro _
      exact Or.inl ((hstsCheck_error_iff config.hsts).mp ⟨e, hc⟩)
    · intro _
      exact ⟨e, by simp⟩
  | ok u =>
    constructor
    · intro h
      exact Or.inr ((reportCheck_error_iff config.reportTo).mp (by simpa using h))
    · intro h
      rcases h with h | h
      · obtain ⟨e, he⟩ := (hstsCheck_error_iff config.hsts).mpr h
        rw [hc] at he
        exact absurd he (by simp)
      · obtain ⟨e, he⟩ := (reportCheck_error_iff config.reportTo).mpr h
        exact ⟨e, by simpa using he⟩

/-- C4: middleware construction fails if and only if the user config has
`hsts.maxAge` present and negative, or some `reportTo` entry with
negative `maxAge` or an empty `endpoints` list; and per-request
processing can only raise the (distinct) `TypeError` of the CSP builder,
never a configuration-validation error. -/
theorem C4_validation (config : SecurityConfig) (isProduction : Bool) :
    ((∃ e, tirneHelmet config isProduction = Except.error e) ↔
      ((∃ h m, config.hsts = some h ∧ h.maxAge = some m ∧ m < 0) ∨
       (∃ l, config.reportTo = some l ∧ ∃ r ∈ l, r.maxAge < 0 ∨ r.endpoints = []))) ∧
    (∀ mw genNonce resp e, tirneHelmet config isProduction = Except.ok mw →
       applyMW mw genNonce resp = Except.error e →
       e = "TypeError: values.join is not a function") := by
  constructor
  · rw [← validateConfig_error_iff]
    unfold tirneHelmet
    cases hv : validateConfig config with
    | error e => simp
    | ok u => simp
  · intro mw genNonce resp e _ herr
    exact applyMW_error mw genNonce resp e herr

/-- C4 (witness): `hsts.maxAge = -1` makes construction fail. -/
theorem C4_validation_witness :
    ∃ e, tirneHelmet { hsts := some { maxAge := some (-1) } } true = Except.error e :=
  (C4_validation { hsts := some { maxAge := some (-1) } } true).1.mpr
    (Or.inl ⟨{ maxAge := some (-1) }, -1, rfl, rfl, by decide⟩)

/-! ### Claims C7 and C10: nonce behaviour -/

theorem intercalate_go_prefix (sep : String) (l : List String) :
    ∀ acc₁ acc₂ : String, String.intercalate.go (acc₁ ++ acc₂) sep l =
      acc₁ ++ String.intercalate.go acc₂ sep l := by
  induction l with
  | nil => intro a b; simp [String.intercalate.go]
  | cons x t ih =>
    intro a b
    simp only [String.intercalate.go]
    rw [String.append_assoc a b sep, String.append_assoc a (b ++ sep) x]
    exact ih a (b ++ sep ++ x)

theorem intercalate_cons (sep a : String) (t : List String) (ht : t ≠ []) :
    String.intercalate sep (a :: t) = a ++ sep ++ String.intercalate sep t := by
  cases t with
  | nil => exact absurd rfl ht
  | cons b t' =>
    show String.intercalate.go a sep (b :: t') = a ++ sep ++ String.intercalate.go b sep t'
    simp only [String.intercalate.go]
    exact intercalate_go_prefix sep t' (a ++ sep) b

/-- Shared lemma: whenever the resolved CSP has a truthy `useNonce` and a
non-empty nonce was generated, the produced response exposes it via
`X-Nonce`. -/
theorem xnonce_lookup (config : SecurityConfig) (isProduction : Bool) (v : String)
    (resp r : Response) (c : CSPConfig)
    (hc : (resolveConfig config).csp = some c)
    (hu : c.useNonce = some true) (hv : v ≠ "")
    (hr : runOn config isProduction v resp = Except.ok r) :
    hget r.headers "X-Nonce" = some v := by
  obtain ⟨ws, hw, _, _, _, hh⟩ := runOn_ok config isProduction v resp r hr
  obtain ⟨cw, hcw, hws⟩ := writes_ok_struct _ _ _ hw
  rw [mkMW_finalConfig, hc] at hcw
  have hcw2 : cspWrites c v = Except.ok cw := hcw
  obtain ⟨val, hval, hcweq⟩ := cspWrites_ok_struct _ _ _ hcw2
  have hnc : nonceChunk c v = [("X-Nonce", v)] := by
    unfold nonceChunk
    simp [hu, hv]
  have hsts0 : lookupLastCI (stsChunk (mkMW config isProduction)) "X-Nonce" = none := by
    apply lookupLastCI_eq_none
    intro p hp
    rw [mem_stsChunk _ p hp]
    decide
  have hpp0 : lookupLastCI (ppChunk (mkMW config isProduction)) "X-Nonce" = none := by
    apply lookupLastCI_eq_none
    intro p hp
    rw [mem_ppChunk _ p hp]
    decide
  have hcwX : lookupLastCI cw "X-Nonce" = some v := by
    rw [hcweq, hnc, lookupLastCI_append, lookupLastCI_singleton]
    simp
  rw [hh, hget_setAll, hws, mkMW_static]
  simp only [lookupLastCI_append, hsts0, hpp0, hcwX]

/-- Witness configuration for C10: `useNonce` with empty source lists. -/
def cfgC10 : SecurityConfig :=
  { csp := some { scriptSrc := some [], styleSrc := some [], useNonce := some true } }

/-- Witness configuration for C7: `useNonce` with `script-src` emptied
and `style-src` present. -/
def cfgC7 : SecurityConfig :=
  { csp := some { scriptSrc := some [], styleSrc := some [permission.SELF],
                  useNonce := some true } }

/-- C10: whenever the resolved policy has `csp.useNonce = true`, every
successfully produced response carries an `X-Nonce` header equal to the
generated nonce, even when `script-src`/`style-src` are empty so that no
nonce token appears in the CSP value (`generateNonce()` always returns a
non-empty base64 string, which the hypothesis `v ≠ ""` reflects). -/
theorem C10_xnonce (config : SecurityConfig) (isProduction : Bool) (v : String)
    (resp r : Response) (c : CSPConfig)
    (hc : (resolveConfig config).csp = some c)
    (hu : c.useNonce = some true) (hv : v ≠ "")
    (hr : runOn config isProduction v resp = Except.ok r) :
    hget r.headers "X-Nonce" = some v :=
  xnonce_lookup config isProduction v resp r c hc hu hv hr

/-- C10 (witness): `useNonce` with empty `script-src`/`style-src` lists
still yields the `X-Nonce` header. -/
theorem C10_xnonce_witness :
    hget (runOnD cfgC10 false "NONCE" resp0).headers "X-Nonce" = some "NONCE" :=
  C10_xnonce cfgC10 false "NONCE" resp0 (runOnD cfgC10 false "NONCE" resp0)
    (mergeCSP DEFAULT_CSP_CONFIG
      { scriptSrc := some [], styleSrc := some [], useNonce := some true })
    (by decide) (by decide) (by decide) (by decide)

/-- C7: with `useNonce` true (and a non-empty generated nonce), the
response's `X-Nonce` header equals `<v>` and the CSP header carries the
joined directive clauses; for each of `script-src` and `style-src` that
appears (its source list present and non-empty), its emitted clause is
exactly the space-join of the configured source tokens followed by one
`'nonce-<v>'` token — so, when the generated token does not collide with
a configured token, it occurs exactly once in that clause's token list. -/
theorem C7_nonce (config : SecurityConfig) (isProduction : Bool) (v : String)
    (resp r : Response) (c : CSPConfig)
    (hc : (resolveConfig config).csp = some c)
    (hu : c.useNonce = some true) (hv : v ≠ "")
    (hr : runOn config isProduction v resp = Except.ok r) :
    hget r.headers "X-Nonce" = some v ∧
    ∃ parts, buildCSPParts (some v) (cspEntries c) = Except.ok parts ∧
      hget r.headers (cspHeaderName c) = some (String.intercalate "; " parts) ∧
      (∀ l, c.scriptSrc = some l → l ≠ [] →
        entryClause (some v) "scriptSrc" l ∈ parts ∧
        entryClause (some v) "scriptSrc" l =
          String.intercalate " " ("script-src" :: (l ++ ["\x27nonce-" ++ v ++ "\x27"])) ∧
        (("\x27nonce-" ++ v ++ "\x27") ∉ l →
          List.count ("\x27nonce-" ++ v ++ "\x27") (l ++ ["\x27nonce-" ++ v ++ "\x27"]) = 1)) ∧
      (∀ m, c.styleSrc = some m → m ≠ [] →
        entryClause (some v) "styleSrc" m ∈ parts ∧
        entryClause (some v) "styleSrc" m =
          String.intercalate " " ("style-src" :: (m ++ ["\x27nonce-" ++ v ++ "\x27"])) ∧
        (("\x27nonce-" ++ v ++ "\x27") ∉ m →
          List.count ("\x27nonce-" ++ v ++ "\x27") (m ++ ["\x27nonce-" ++ v ++ "\x27"]) = 1)) := by
  have hxn := xnonce_lookup config isProduction v resp r c hc hu hv hr
  refine ⟨hxn, ?_⟩
  obtain ⟨ws, hw, _, _, _, hh⟩ := runOn_ok config isProduction v resp r hr
  obtain ⟨cw, hcw, hws⟩ := writes_ok_struct _ _ _ hw
  rw [mkMW_finalConfig, hc] at hcw
  have hcw2 : cspWrites c v = Except.ok cw := hcw
  obtain ⟨val, hval, hcweq⟩ := cspWrites_ok_struct _ _ _ hcw2
  have hun : c.useNonce.getD false = true := by rw [hu]; rfl
  rw [if_pos hun] at hval
  have hact : cspActive c (some v) = some v := by
    simp [cspActive, hun, hv]
  unfold buildCSPString at hval
  rw [hact] at hval
  cases hp : buildCSPParts (some v) (cspEntries c) with
  | error e => rw [hp] at hval; exact absurd hval (by simp)
  | ok parts =>
    rw [hp] at hval
    simp only [Except.ok.injEq] at hval
    refine ⟨parts, rfl, ?_, ?_, ?_⟩
    · -- the CSP header carries the joined parts
      have hxnonce : lowerStr "X-Nonce" ≠ lowerStr (cspHeaderName c) := by
        unfold cspHeaderName
        by_cases hro : c.reportOnly.getD false
        · rw [if_pos hro]; decide
        · rw [if_neg hro]; decide
      have hnc : nonceChunk c v = [("X-Nonce", v)] := by
        unfold nonceChunk
        simp [hu, hv]
      have hcwN : lookupLastCI cw (cspHeaderName c) = some val := by
        rw [hcweq, hnc, lookupLastCI_append, lookupLastCI_singleton, if_neg hxnonce,
          lookupLastCI_singleton, if_pos rfl]
      have hsts1 : lookupLastCI (stsChunk (mkMW config isProduction)) (cspHeaderName c)
          = none := by
        apply lookupLastCI_eq_none
        intro p hp2
        rw [mem_stsChunk _ p hp2]
        unfold cspHeaderName
        by_cases hro : c.reportOnly.getD false
        · rw [if_pos hro]; decide
        · rw [if_neg hro]; decide
      have hpp1 : lookupLastCI (ppChunk (mkMW config isProduction)) (cspHeaderName c)
          = none := by
        apply lookupLastCI_eq_none
        intro p hp2
        rw [mem_ppChunk _ p hp2]
        unfold cspHeaderName
        by_cases hro : c.reportOnly.getD false
        · rw [if_pos hro]; decide
        · rw [if_neg hro]; decide
      rw [hh, hget_setAll, hws, mkMW_static]
      simp only [lookupLastCI_append, hsts1, hpp1, hcwN]
      rw [← hval]
    · -- the script-src clause, whenever the directive appears
      intro l hs hl
      refine ⟨?_, ?_, ?_⟩
      · apply buildCSPParts_mem (some v) (cspEntries c) parts hp "scriptSrc" l _ hl
          (by decide) (by decide)
        unfold cspEntries
        rw [hs]
        simp [List.mem_append]
      · have hkeb : toKebabCase "scriptSrc" = "script-src" := by decide
        rw [entryClause]
        rw [if_pos (Or.inl rfl), hkeb]
        rw [intercalate_cons " " "script-src" (l ++ ["\x27nonce-" ++ v ++ "\x27"]) (by simp),
          intercalate_append_singleton " " ("\x27nonce-" ++ v ++ "\x27") l hl]
        rw [show (" \x27nonce-" : String) = " " ++ "\x27nonce-" from by decide]
        simp only [String.append_assoc]
      · intro hnot
        rw [List.count_append, List.count_eq_zero_of_not_mem hnot]
        simp
    · -- the style-src clause, whenever the directive appears
      intro m hm hml
      refine ⟨?_, ?_, ?_⟩
      · apply buildCSPParts_mem (some v) (cspEntries c) parts hp "styleSrc" m _ hml
          (by decide) (by decide)
        unfold cspEntries
        rw [hm]
        simp [List.mem_append]
      · have hkeb : toKebabCase "styleSrc" = "style-src" := by decide
        rw [entryClause]
        rw [if_pos (Or.inr rfl), hkeb]
        rw [intercalate_cons " " "style-src" (m ++ ["\x27nonce-" ++ v ++ "\x27"]) (by simp),
          intercalate_append_singleton " " ("\x27nonce-" ++ v ++ "\x27") m hml]
        rw [show (" \x27nonce-" : String) = " " ++ "\x27nonce-" from by decide]
        simp only [String.append_assoc]
      · intro hnot
        rw [List.count_append, List.count_eq_zero_of_not_mem hnot]
        simp

/-- C7 (witness): a policy that empties `script-src` but keeps a
non-empty `style-src` under `useNonce` still gets the `X-Nonce` header
(the per-directive conclusions apply to `style-src` alone here). -/
theorem C7_nonce_witness :
    hget (runOnD cfgC7 false "NONCE" resp0).headers "X-Nonce" = some "NONCE" :=
  (C7_nonce cfgC7 false "NONCE" resp0 (runOnD cfgC7 false "NONCE" resp0)
    (mergeCSP DEFAULT_CSP_CONFIG
      { scriptSrc := some [], styleSrc := some [permission.SELF], useNonce := some true })
    (by decide) (by decide) (by decide) (by decide)).1

/-! ### Claim C8: the header injector -/

/-- C8: the injector returns a new response with the original status,
status text and body; its headers are the original headers overwritten
last-writer-wins by the middleware's write list, so the value of every
header name the middleware writes is independent of the downstream
response (handler-set headers of the same name are always overridden),
while names the middleware does not write are passed through unchanged. -/
theorem C8_injector (mw : HelmetMW) (genNonce : String) (resp resp2 r r2 : Response)
    (hr : applyMW mw genNonce resp = Except.ok r)
    (hr2 : applyMW mw genNonce resp2 = Except.ok r2) :
    r.status = resp.status ∧ r.statusText = resp.statusText ∧ r.body = resp.body ∧
    ∃ ws, writes mw genNonce = Except.ok ws ∧
      r.headers = setAll resp.headers ws ∧
      (∀ k, (∃ p ∈ ws, lowerStr p.1 = lowerStr k) → hget r.headers k = hget r2.headers k) ∧
      (∀ k, (∀ p ∈ ws, lowerStr p.1 ≠ lowerStr k) → hget r.headers k = hget resp.headers k) := by
  rw [applyMW_eq_writes] at hr hr2
  cases hw : writes mw genNonce with
  | error e =>
    rw [hw] at hr
    exact absurd hr (by simp [Except.map])
  | ok ws =>
    rw [hw] at hr hr2
    simp only [Except.map, Except.ok.injEq] at hr hr2
    refine ⟨by rw [← hr], by rw [← hr], by rw [← hr], ws, rfl, by rw [← hr], ?_, ?_⟩
    · intro k hk
      obtain ⟨v, hv⟩ := lookupLastCI_isSome ws k (by
        obtain ⟨p, hp, hpk⟩ := hk
        exact ⟨p, hp, hpk⟩)
      rw [← hr, ← hr2]
      show hget (setAll resp.headers ws) k = hget (setAll resp2.headers ws) k
      rw [hget_setAll, hget_setAll, hv]
    · intro k hk
      rw [← hr]
      show hget (setAll resp.headers ws) k = hget resp.headers k
      rw [hget_setAll, lookupLastCI_eq_none ws k hk]

/-- C8 (witness): on a response that presets `X-Frame-Options`, the
injector preserves status/body and overrides the header the same way as
on a response without it. -/
theorem C8_injector_witness :
    (applyMWD (mkMW {} false) "N"
        { status := 201, statusText := "Created", body := "B",
          headers := [("X-Frame-Options", "ALLOWALL")] }).status = 201 ∧
    (applyMWD (mkMW {} false) "N"
        { status := 201, statusText := "Created", body := "B",
          headers := [("X-Frame-Options", "ALLOWALL")] }).body = "B" ∧
    hget (applyMWD (mkMW {} false) "N"
        { status := 201, statusText := "Created", body := "B",
          headers := [("X-Frame-Options", "ALLOWALL")] }).headers "X-Frame-Options" =
      hget (applyMWD (mkMW {} false) "N" resp0).headers "X-Frame-Options" := by
  have h := C8_injector (mkMW {} false) "N"
    { status := 201, statusText := "Created", body := "B",
      headers := [("X-Frame-Options", "ALLOWALL")] }
    resp0
    (applyMWD (mkMW {} false) "N"
      { status := 201, statusText := "Created", body := "B",
        headers := [("X-Frame-Options", "ALLOWALL")] })
    (applyMWD (mkMW {} false) "N" resp0)
    (by decide) (by decide)
  obtain ⟨h1, _, h3, ws, hws, _, hover, _⟩ := h
  refine ⟨h1, h3, ?_⟩
  apply hover
  refine ⟨("X-Frame-Options", "DENY"), ?_, rfl⟩
  have hws2 : ws = (writes (mkMW {} false) "N").toOption.getD [] := by
    rw [hws]
    rfl
  rw [hws2]
  decide

/-! ### Claim C6: resolution semantics -/

/-- JS property access on a record (`obj[k]`), first-match lookup. -/
def lookupRec {α : Type} (l : List (String × α)) (k : String) : Option α :=
  (l.find? (fun p => decide (p.1 = k))).map Prod.snd

theorem find?_filter_sub {α : Type} (l : List α) (f p : α → Bool)
    (h : ∀ x, p x = true → f x = true) : (l.filter f).find? p = l.find? p := by
  induction l with
  | nil => rfl
  | cons x t ih =>
    by_cases hp : p x
    · have hf := h x hp
      simp [List.filter_cons, hf, List.find?_cons, hp]
    · cases hfx : f x
      · simp [List.filter_cons, hfx, List.find?_cons, hp, ih]
      · simp [List.filter_cons, hfx, List.find?_cons, hp, ih]

theorem lookupRec_recordMerge {α : Type} (a b : List (String × α)) (k : String) :
    lookupRec (recordMerge a b) k =
      match lookupRec b k with
      | some v => some v
      | none => lookupRec a k := by
  unfold lookupRec recordMerge
  rw [List.find?_append, List.find?_map]
  have hcomp : ((fun p : String × α => decide (p.1 = k)) ∘ (fun p : String × α =>
      match b.find? (fun q => decide (q.1 = p.1)) with
      | some q => (p.1, q.2)
      | none => p)) = (fun p : String × α => decide (p.1 = k)) := by
    funext p
    cases hf : b.find? (fun q => decide (q.1 = p.1)) <;> simp [hf]
  rw [hcomp]
  cases hfa : a.find? (fun p => decide (p.1 = k)) with
  | some q =>
    have hq1 : q.1 = k := by simpa using List.find?_some hfa
    have hfq : (match b.find? (fun r => decide (r.1 = q.1)) with
        | some r => (q.1, r.2)
        | none => q) = (match b.find? (fun r => decide (r.1 = k)) with
        | some r => (q.1, r.2)
        | none => q) := by rw [hq1]
    cases hfb : b.find? (fun r => decide (r.1 = k)) with
    | some rr => simp [hfq, hfb]
    | none => simp [hfq, hfb]
  | none =>
    have hfilter : (b.filter (fun q => !(a.any (fun p => decide (p.1 = q.1))))).find?
        (fun p => decide (p.1 = k)) = b.find? (fun p => decide (p.1 = k)) := by
      apply find?_filter_sub
      intro x hx
      simp only [decide_eq_true_eq] at hx
      simp only [Bool.not_eq_true']
      apply List.any_eq_false.mpr
      intro p hp
      have := List.find?_eq_none.mp hfa p hp
      simp only [decide_eq_true_eq] at this ⊢
      rw [hx]
      exact this
    cases hfb : b.find? (fun p => decide (p.1 = k)) with
    | some rr => simp [hfilter, hfb]
    | none => simp [hfilter, hfb]

theorem orD_cases {α : Type} (u d : Option α) :
    (∀ x, u = some x → orD u d = some x) ∧ (u = none → orD u d = d) := by
  cases u <;> simp [orD]

theorem orD_none {α : Type} (u : Option α) : orD u none = u := by
  cases u <;> rfl

/-- C6: config resolution replaces each top-level field by the
user-supplied value when present (the default otherwise), except `csp`,
`permissionsPolicy` and `hsts`, which are shallow-merged key-by-key: a
user key overrides, a default key absent from the user input is
retained. -/
theorem C6_resolution (config : SecurityConfig) :
    (∀ x, config.frameOptions = some x → (resolveConfig config).frameOptions = some x) ∧
    (config.frameOptions = none → (resolveConfig config).frameOptions = some "DENY") ∧
    (∀ x, config.xssProtection = some x → (resolveConfig config).xssProtection = some x) ∧
    (config.xssProtection = none → (resolveConfig config).xssProtection = some true) ∧
    (∀ x, config.dnsPrefetch = some x → (resolveConfig config).dnsPrefetch = some x) ∧
    (config.dnsPrefetch = none → (resolveConfig config).dnsPrefetch = some false) ∧
    (∀ x, config.referrerPolicy = some x → (resolveConfig config).referrerPolicy = some x) ∧
    (config.referrerPolicy = none →
      (resolveConfig config).referrerPolicy = some "strict-origin-when-cross-origin") ∧
    (∀ x, config.corp = some x → (resolveConfig config).corp = some x) ∧
    (config.corp = none → (resolveConfig config).corp = some "same-origin") ∧
    (∀ x, config.coop = some x → (resolveConfig config).coop = some x) ∧
    (config.coop = none → (resolveConfig config).coop = some "same-origin") ∧
    ((resolveConfig config).reportTo = config.reportTo) ∧
    ((resolveConfig config).customHeaders = config.customHeaders) ∧
    (config.csp = none → (resolveConfig config).csp = some DEFAULT_CSP_CONFIG) ∧
    (∀ u, config.csp = some u → ∃ c, (resolveConfig config).csp = some c ∧
      (∀ x, u.defaultSrc = some x → c.defaultSrc = some x) ∧
      (u.defaultSrc = none → c.defaultSrc = DEFAULT_CSP_CONFIG.defaultSrc) ∧
      (∀ x, u.scriptSrc = some x → c.scriptSrc = some x) ∧
      (u.scriptSrc = none → c.scriptSrc = DEFAULT_CSP_CONFIG.scriptSrc) ∧
      (∀ x, u.styleSrc = some x → c.styleSrc = some x) ∧
      (u.styleSrc = none → c.styleSrc = DEFAULT_CSP_CONFIG.styleSrc) ∧
      (∀ x, u.imgSrc = some x → c.imgSrc = some x) ∧
      (u.imgSrc = none → c.imgSrc = DEFAULT_CSP_CONFIG.imgSrc) ∧
      (∀ x, u.fontSrc = some x → c.fontSrc = some x) ∧
      (u.fontSrc = none → c.fontSrc = DEFAULT_CSP_CONFIG.fontSrc) ∧
      (∀ x, u.connectSrc = some x → c.connectSrc = some x) ∧
      (u.connectSrc = none → c.connectSrc = DEFAULT_CSP_CONFIG.connectSrc) ∧
      (∀ x, u.frameSrc = some x → c.frameSrc = some x) ∧
      (u.frameSrc = none → c.frameSrc = DEFAULT_CSP_CONFIG.frameSrc) ∧
      (∀ x, u.objectSrc = some x → c.objectSrc = some x) ∧
      (u.objectSrc = none → c.objectSrc = DEFAULT_CSP_CONFIG.objectSrc) ∧
      (∀ x, u.baseUri = some x → c.baseUri = some x) ∧
      (u.baseUri = none → c.baseUri = DEFAULT_CSP_CONFIG.baseUri) ∧
      (∀ x, u.reportUri = some x → c.reportUri = some x) ∧
      (u.reportUri = none → c.reportUri = none) ∧
      (∀ x, u.useNonce = some x → c.useNonce = some x) ∧
      (u.useNonce = none → c.useNonce = none) ∧
      (∀ x, u.reportOnly = some x → c.reportOnly = some x) ∧
      (u.reportOnly = none → c.reportOnly = none)) ∧
    (config.hsts = none → (resolveConfig config).hsts = some DEFAULT_HSTS) ∧
    (∀ u, config.hsts = some u → ∃ h, (resolveConfig config).hsts = some h ∧
      (∀ x, u.maxAge = some x → h.maxAge = some x) ∧
      (u.maxAge = none → h.maxAge = DEFAULT_HSTS.maxAge) ∧
      (∀ x, u.includeSubDomains = some x → h.includeSubDomains = some x) ∧
      (u.includeSubDomains = none → h.includeSubDomains = DEFAULT_HSTS.includeSubDomains) ∧
      (∀ x, u.preload = some x → h.preload = some x) ∧
      (u.preload = none → h.preload = DEFAULT_HSTS.preload)) ∧
    (config.permissionsPolicy = none →
      (resolveConfig config).permissionsPolicy = some DEFAULT_PERMISSIONS_POLICY) ∧
    (∀ m, config.permissionsPolicy = some m → ∃ pp,
      (resolveConfig config).permissionsPolicy = some pp ∧
      ∀ k, (∀ x, lookupRec m k = some x → lookupRec pp k = some x) ∧
        (lookupRec m k = none → lookupRec pp k = lookupRec DEFAULT_PERMISSIONS_POLICY k)) := by
  refine ⟨(orD_cases _ _).1, (orD_cases _ _).2, (orD_cases _ _).1, (orD_cases _ _).2,
    (orD_cases _ _).1, (orD_cases _ _).2, (orD_cases _ _).1, (orD_cases _ _).2,
    (orD_cases _ _).1, (orD_cases _ _).2, (orD_cases _ _).1, (orD_cases _ _).2,
    orD_none _, orD_none _, ?_, ?_, ?_, ?_, ?_, ?_⟩
  · intro h
    simp [resolveConfig, h]
  · intro u hu
    refine ⟨mergeCSP DEFAULT_CSP_CONFIG u, by simp [resolveConfig, hu], ?_⟩
    exact ⟨(orD_cases _ _).1, (orD_cases _ _).2, (orD_cases _ _).1, (orD_cases _ _).2,
      (orD_cases _ _).1, (orD_cases _ _).2, (orD_cases _ _).1, (orD_cases _ _).2,
      (orD_cases _ _).1, (orD_cases _ _).2, (orD_cases _ _).1, (orD_cases _ _).2,
      (orD_cases _ _).1, (orD_cases _ _).2, (orD_cases _ _).1, (orD_cases _ _).2,
      (orD_cases _ _).1, (orD_cases _ _).2, (orD_cases _ _).1, (orD_cases _ _).2,
      (orD_cases _ _).1, (orD_cases _ _).2, (orD_cases _ _).1, (orD_cases _ _).2⟩
  · intro h
    simp [resolveConfig, h]
  · intro u hu
    refine ⟨mergeHSTS DEFAULT_HSTS u, by simp [resolveConfig, hu], ?_⟩
    exact ⟨(orD_cases _ _).1, (orD_cases _ _).2, (orD_cases _ _).1, (orD_cases _ _).2,
      (orD_cases _ _).1, (orD_cases _ _).2⟩
  · intro h
    simp [resolveConfig, h]
  · intro m hm
    refine ⟨recordMerge DEFAULT_PERMISSIONS_POLICY m, by simp [resolveConfig, hm], ?_⟩
    intro k
    constructor
    · intro x hx
      rw [lookupRec_recordMerge, hx]
    · intro hx
      rw [lookupRec_recordMerge, hx]

/-- C6 (witness): a config that overrides `frameOptions` and one
`permissionsPolicy` key keeps the other defaults. -/
theorem C6_resolution_witness :
    (resolveConfig { frameOptions := some "SAMEORIGIN" }).frameOptions = some "SAMEORIGIN" ∧
    (resolveConfig { frameOptions := some "SAMEORIGIN" }).xssProtection = some true :=
  ⟨(C6_resolution { frameOptions := some "SAMEORIGIN" }).1 "SAMEORIGIN" rfl,
   (C6_resolution { frameOptions := some "SAMEORIGIN" }).2.2.2.1 rfl⟩

/-! ### Claim C9: the Report-To wire format -/

/-- JSON values, as serialized by `JSON.stringify`. -/
inductive Json where
  | str (s : String)
  | num (n : Int)
  | bool (b : Bool)
  | arr (elems : List Json)
  | obj (fields : List (String × Json))

mutual

/-- The `JSON.stringify` of a JSON value (no spacing). -/
def Json.render : Json → String
  | Json.str s => jsonStr s
  | Json.num n => toString n
  | Json.bool b => if b then "true" else "false"
  | Json.arr elems => "[" ++ Json.renderElems elems ++ "]"
  | Json.obj fields => "\x7b" ++ Json.renderFields fields ++ "\x7d"

/-- Array elements, comma-separated. -/
def Json.renderElems : List Json → String
  | [] => ""
  | [j] => Json.render j
  | j :: js => Json.render j ++ "," ++ Json.renderElems js

/-- Object fields, comma-separated `"key":value` pairs. -/
def Json.renderFields : List (String × Json) → String
  | [] => ""
  | [kv] => jsonStr kv.1 ++ ":" ++ Json.render kv.2
  | kv :: fs => jsonStr kv.1 ++ ":" ++ Json.render kv.2 ++ "," ++ Json.renderFields fs

end

/-- The JSON object `JSON.stringify` sees for one endpoint: `undefined`
properties are omitted. -/
def endpointToJson (e : Endpoint) : Json :=
  Json.obj ([("url", Json.str e.url)]
    ++ (match e.priority with
        | some n => [("priority", Json.num n)]
        | none => [])
    ++ (match e.weight with
        | some n => [("weight", Json.num n)]
        | none => []))

/-- The JSON object `buildReportToString` maps one report group to:
`{group, max_age: maxAge, endpoints, include_subdomains:
includeSubdomains}`, with `undefined` properties omitted. -/
def reportToJson (g : ReportToConfig) : Json :=
  Json.obj ([("group", Json.str g.group), ("max_age", Json.num g.maxAge),
             ("endpoints", Json.arr (g.endpoints.map endpointToJson))]
    ++ (match g.includeSubdomains with
        | some b => [("include_subdomains", Json.bool b)]
        | none => []))

theorem renderElems_eq (elems : List Json) :
    Json.renderElems elems = String.intercalate "," (elems.map Json.render) := by
  induction elems with
  | nil => rfl
  | cons j js ih =>
    cases js with
    | nil => simp [Json.renderElems, String.intercalate, String.intercalate.go]
    | cons j2 js2 =>
      simp only [Json.renderElems, List.map_cons]
      rw [intercalate_cons "," (Json.render j) _ (by simp)]
      rw [← List.map_cons, ih]

theorem renderEndpoint_eq (e : Endpoint) :
    renderEndpoint e = Json.render (endpointToJson e) := by
  cases hp : e.priority <;> cases hw : e.weight <;>
    simp only [renderEndpoint, endpointToJson, hp, hw, List.append_nil, List.nil_append,
      List.cons_append, List.singleton_append, Json.render, Json.renderFields,
      String.append_empty] <;>
    simp only [show jsonStr "url" = "\"url\"" from by decide,
      show jsonStr "priority" = "\"priority\"" from by decide,
      show jsonStr "weight" = "\"weight\"" from by decide,
      show ("\x7b\"url\":" : String) = "\x7b" ++ "\"url\"" ++ ":" from by decide,
      show (",\"priority\":" : String) = "," ++ "\"priority\"" ++ ":" from by decide,
      show (",\"weight\":" : String) = "," ++ "\"weight\"" ++ ":" from by decide,
      String.append_assoc]

theorem renderReport_eq (g : ReportToConfig) :
    renderReport g = Json.render (reportToJson g) := by
  have hep : String.intercalate "," (g.endpoints.map renderEndpoint) =
      Json.renderElems (g.endpoints.map endpointToJson) := by
    rw [renderElems_eq, List.map_map]
    congr 1
    exact List.map_congr_left (fun e _ => renderEndpoint_eq e)
  cases his : g.includeSubdomains <;>
    simp only [renderReport, reportToJson, his, List.append_nil, List.nil_append,
      List.cons_append, List.singleton_append, Json.render, Json.renderFields,
      String.append_empty, hep] <;>
    simp only [show jsonStr "group" = "\"group\"" from by decide,
      show jsonStr "max_age" = "\"max_age\"" from by decide,
      show jsonStr "endpoints" = "\"endpoints\"" from by decide,
      show jsonStr "include_subdomains" = "\"include_subdomains\"" from by decide,
      show ("\x7b\"group\":" : String) = "\x7b" ++ "\"group\"" ++ ":" from by decide,
      show (",\"max_age\":" : String) = "," ++ "\"max_age\"" ++ ":" from by decide,
      show (",\"endpoints\":[" : String) = "," ++ "\"endpoints\"" ++ ":" ++ "[" from by decide,
      show (",\"include_subdomains\":" : String) =
        "," ++ "\"include_subdomains\"" ++ ":" from by decide,
      String.append_assoc]

/-- C9 (counterexample): a report group without `includeSubdomains`
serializes without any `include_subdomains` field (while `max_age` is in
snake_case), so not every element uses all four field names. -/
theorem C9_counterexample :
    buildReportToString [{ group := "g", maxAge := 10, endpoints := [{ url := "u" }] }] =
      "[\x7b\"group\":\"g\",\"max_age\":10,\"endpoints\":[\x7b\"url\":\"u\"\x7d]\x7d]" ∧
    strContainsSub "include_subdomains"
      (buildReportToString [{ group := "g", maxAge := 10, endpoints := [{ url := "u" }] }]) =
      false ∧
    strContainsSub "max_age"
      (buildReportToString [{ group := "g", maxAge := 10, endpoints := [{ url := "u" }] }]) =
      true := by
  refine ⟨by decide, by decide, by decide⟩

/-- C9 (amended): for every accepted `reportTo` list, the header value is
the `JSON.stringify` rendering of a JSON array with one object element
per report group; each element uses the snake_case field names `group`,
`max_age` and `endpoints`, and carries `include_subdomains` exactly when
the group's optional `includeSubdomains` field is present. -/
theorem C9_report_to_json (reports : List ReportToConfig) :
    buildReportToString reports = Json.render (Json.arr (reports.map reportToJson)) ∧
    (reports.map reportToJson).length = reports.length ∧
    List.Forall₂ (fun (g : ReportToConfig) (e : Json) =>
      ∃ kvs, e = Json.obj kvs ∧
        kvs.map Prod.fst = ["group", "max_age", "endpoints"] ++
          (if g.includeSubdomains.isSome then ["include_subdomains"] else []) ∧
        lookupRec kvs "group" = some (Json.str g.group) ∧
        lookupRec kvs "max_age" = some (Json.num g.maxAge) ∧
        lookupRec kvs "endpoints" = some (Json.arr (g.endpoints.map endpointToJson)) ∧
        (∀ b, g.includeSubdomains = some b →
          lookupRec kvs "include_subdomains" = some (Json.bool b)) ∧
        (g.includeSubdomains = none → lookupRec kvs "include_subdomains" = none))
      reports (reports.map reportToJson) := by
  refine ⟨?_, List.length_map _ _, ?_⟩
  · simp only [Json.render, renderElems_eq, List.map_map]
    unfold buildReportToString
    have hmap : List.map renderReport reports =
        List.map (Json.render ∘ reportToJson) reports :=
      List.map_congr_left (fun g _ => renderReport_eq g)
    rw [hmap]
  · rw [List.forall₂_map_right_iff]
    apply List.forall₂_same.mpr
    intro g _
    cases his : g.includeSubdomains with
    | none =>
      refine ⟨[("group", Json.str g.group), ("max_age", Json.num g.maxAge),
        ("endpoints", Json.arr (g.endpoints.map endpointToJson))], ?_, ?_, ?_, ?_, ?_, ?_, ?_⟩
      · simp [reportToJson, his]
      · simp [his]
      · simp [lookupRec, List.find?]
      · simp [lookupRec, List.find?]
      · simp [lookupRec, List.find?]
      · intro b hb
        exact absurd hb (by simp)
      · intro _
        simp [lookupRec, List.find?]
    | some b =>
      refine ⟨[("group", Json.str g.group), ("max_age", Json.num g.maxAge),
        ("endpoints", Json.arr (g.endpoints.map endpointToJson)),
        ("include_subdomains", Json.bool b)], ?_, ?_, ?_, ?_, ?_, ?_, ?_⟩
      · simp [reportToJson, his]
      · simp [his]
      · simp [lookupRec, List.find?]
      · simp [lookupRec, List.find?]
      · simp [lookupRec, List.find?]
      · intro b2 hb2
        simp only [Option.some.injEq] at hb2
        rw [← hb2]
        simp [lookupRec, List.find?]
      · intro hn
        exact absurd hn (by simp)

/-- C9 (witness): the empty report list renders as the empty JSON array. -/
theorem C9_report_to_json_witness :
    buildReportToString [] =
      Json.render (Json.arr (([] : List ReportToConfig).map reportToJson)) :=
  (C9_report_to_json []).1

end Helmet
